import Mathlib

/-!
The easyss proxy: address validation, handshake and frame headers.

A shallow embedding of the parts of the easyss tunnelling proxy that decide
the handshake between the local endpoint (`local.go`, `easyss.go`) and the
remote endpoint (`remote.go`, `socks/socks5.go`, `util/http2frame.go`).

Conventions of the embedding:

* a Go `string` and a Go `[]byte` are both `Bytes`, a list of byte values
  (a Go string is an immutable byte sequence, so `[]byte(s)` and `string(b)`
  are the identity on `Bytes`);
* a Go `error` is `Option Error` (`none` is `nil`);
* a function that can fail or index out of range returns an `Outcome`:
  a value, a returned error, or a run-time panic;
* calls into collaborators that are not pure (the pool, the cipher stream, the
  network) are recorded as `Event`s, and their results are taken from an
  explicit environment record.
-/

namespace EasyssProxy

/-- A Go byte string: the contents of a `string` or of a `[]byte`. -/
abbrev Bytes := List Nat

/-- The bytes of an ASCII string literal of the source. -/
def lit (s : String) : Bytes := s.toList.map Char.toNat

/-- Equality of the results of fallible functions is decidable. -/
instance instDecidableEqExcept {ε α : Type} [DecidableEq ε] [DecidableEq α] :
    DecidableEq (Except ε α)
  | .ok a, .ok b => if h : a = b then isTrue (by rw [h]) else isFalse (fun h1 => h (Except.ok.inj h1))
  | .error a, .error b =>
    if h : a = b then isTrue (by rw [h]) else isFalse (fun h1 => h (Except.error.inj h1))
  | .ok _, .error _ => isFalse (fun h => Except.noConfusion h)
  | .error _, .ok _ => isFalse (fun h => Except.noConfusion h)

/-! ## Go standard library functions used by the embedded code -/

namespace Go

/-- The error type `net.AddrError`: a reason and the offending address. -/
structure AddrError where
  Err : String
  Addr : Bytes
deriving DecidableEq, Repr

/-- Index of the first occurrence of byte `c` (`bytealg.IndexByteString`). -/
def indexByte : Bytes → Nat → Option Nat
  | [], _ => none
  | b :: s, c => if b = c then some 0 else (indexByte s c).map (· + 1)

/-- Index of the last occurrence of byte `c` (`bytealg.LastIndexByteString`). -/
def lastIndexByte : Bytes → Nat → Option Nat
  | [], _ => none
  | b :: s, c =>
    match lastIndexByte s c with
    | some i => some (i + 1)
    | none => if b = c then some 0 else none

/-- The function `net.SplitHostPort`: splits `host:port`, `[host]:port`. -/
def SplitHostPort (hostport : Bytes) : Except AddrError (Bytes × Bytes) :=
  let missingPort := "missing port in address"
  let tooManyColons := "too many colons in address"
  match lastIndexByte hostport ':'.toNat with
  | none => .error ⟨missingPort, hostport⟩
  | some i =>
    if hostport.head? = some '['.toNat then
      match indexByte hostport ']'.toNat with
      | none => .error ⟨"missing ']' in address", hostport⟩
      | some e =>
        if e + 1 = hostport.length then .error ⟨missingPort, hostport⟩
        else if e + 1 = i then
          if (indexByte (hostport.drop 1) '['.toNat).isSome then
            .error ⟨"unexpected '[' in address", hostport⟩
          else if (indexByte (hostport.drop (e + 1)) ']'.toNat).isSome then
            .error ⟨"unexpected ']' in address", hostport⟩
          else .ok ((hostport.take e).drop 1, hostport.drop (i + 1))
        else if hostport.get? (e + 1) = some ':'.toNat then
          .error ⟨tooManyColons, hostport⟩
        else .error ⟨missingPort, hostport⟩
    else
      let host := hostport.take i
      if (indexByte host ':'.toNat).isSome then .error ⟨tooManyColons, hostport⟩
      else if (indexByte hostport '['.toNat).isSome then
        .error ⟨"unexpected '[' in address", hostport⟩
      else if (indexByte hostport ']'.toNat).isSome then
        .error ⟨"unexpected ']' in address", hostport⟩
      else .ok (host, hostport.drop (i + 1))

/-- The function `net.JoinHostPort`: brackets a host that contains a colon or
a percent sign. -/
def JoinHostPort (host port : Bytes) : Bytes :=
  if (indexByte host ':'.toNat).isSome ∨ (indexByte host '%'.toNat).isSome then
    lit "[" ++ host ++ lit "]:" ++ port
  else host ++ lit ":" ++ port

/-- Decimal digits of a natural number (`strconv.Itoa` on a value ≥ 0). -/
def decimal (n : Nat) : Bytes := (Nat.toDigits 10 n).map Char.toNat

/-- The function `strconv.FormatInt(i, 10)` (and `strconv.Itoa`). -/
def FormatInt (i : Int) : Bytes :=
  if i < 0 then lit "-" ++ decimal i.natAbs else decimal i.natAbs

/-- Lower-case hexadecimal digits without leading zeros (`appendHex`). -/
def hex (n : Nat) : Bytes := (Nat.toDigits 16 n).map Char.toNat

/-- Joins byte strings with a separator. -/
def join (sep : Bytes) : List Bytes → Bytes
  | [] => []
  | [x] => x
  | x :: y :: r => x ++ sep ++ join sep (y :: r)

/-- The method `net.IP.To4`: the 4-byte form of an IPv4 address, given either
as 4 bytes or as a 16-byte IPv4-mapped IPv6 address. -/
def To4 (ip : Bytes) : Option Bytes :=
  if ip.length = 4 then some ip
  else if ip.length = 16 ∧ ip.take 10 = List.replicate 10 0 ∧ (ip.drop 10).take 2 = [255, 255]
  then some (ip.drop 12)
  else none

/-- The 16-bit groups of a 16-byte address. -/
def groups : Bytes → List Nat
  | hi :: lo :: r => (hi <<< 8 ||| lo) :: groups r
  | _ => []

/-- Number of leading zero groups. -/
def zeroRun : List Nat → Nat
  | 0 :: gs => zeroRun gs + 1
  | _ => 0

/-- First longest run of zero groups, as (start, length), scanning from group
index `i`; `best` is the longest run found so far. -/
def longestZeroRun : List Nat → Nat → Nat × Nat → Nat × Nat
  | [], _, best => best
  | g :: gs, i, best =>
    let n := zeroRun (g :: gs)
    longestZeroRun gs (i + 1) (if n > best.2 then (i, n) else best)

/-- The method `net.IP.String`: dotted decimal for an IPv4 address, the
RFC 5952 text form (longest run of two or more zero groups written `::`) for
an IPv6 address. -/
def IPString (ip : Bytes) : Bytes :=
  if ip.length = 0 then lit "<nil>"
  else
    match To4 ip with
    | some p4 => join (lit ".") (p4.map decimal)
    | none =>
      if ip.length ≠ 16 then lit "?" ++ (ip.map (fun b => hex (b / 16) ++ hex (b % 16))).flatten
      else
        let gs := groups ip
        let run := longestZeroRun gs 0 (0, 0)
        if run.2 ≤ 1 then join (lit ":") (gs.map hex)
        else
          join (lit ":") ((gs.take run.1).map hex) ++ lit "::" ++
            join (lit ":") ((gs.drop (run.1 + run.2)).map hex)

end Go

/-! ## Helpers of package `util` that are not part of the sources at hand

`validateAddr`, `New` and the remote accept loop call `util.IsIP`,
`util.IsPrivateIP` and `util.IsIPV6`.  The embedded functions take them as a
record `Util`; `specUtil` is a concrete instance. -/

/-- The three address classifiers of package `util`. -/
structure Util where
  IsIP : Bytes → Bool
  IsPrivateIP : Bytes → Bool
  IsIPV6 : Bytes → Bool

namespace SpecUtil

/-- Splits a byte string at every occurrence of `sep`. -/
def splitOn (sep : Nat) : Bytes → List Bytes
  | [] => [[]]
  | b :: s =>
    if b = sep then [] :: splitOn sep s
    else
      match splitOn sep s with
      | [] => [[b]]
      | f :: fs => (b :: f) :: fs

/-- Value of a decimal digit. -/
def decDigit (b : Nat) : Option Nat :=
  if '0'.toNat ≤ b ∧ b ≤ '9'.toNat then some (b - '0'.toNat) else none

/-- Value of a hexadecimal digit. -/
def hexDigit (b : Nat) : Option Nat :=
  if '0'.toNat ≤ b ∧ b ≤ '9'.toNat then some (b - '0'.toNat)
  else if 'a'.toNat ≤ b ∧ b ≤ 'f'.toNat then some (b - 'a'.toNat + 10)
  else if 'A'.toNat ≤ b ∧ b ≤ 'F'.toNat then some (b - 'A'.toNat + 10)
  else none

/-- Reads a number in the given base, most significant digit first. -/
def number (base : Nat) (digit : Nat → Option Nat) : Bytes → Nat → Option Nat
  | [], acc => some acc
  | b :: s, acc =>
    match digit b with
    | some d => number base digit s (acc * base + d)
    | none => none

/-- One field of a dotted quad: 1 to 3 decimal digits, no leading zero,
value at most 255. -/
def octet (f : Bytes) : Option Nat :=
  if f.length = 0 ∨ 3 < f.length ∨ (1 < f.length ∧ f.head? = some '0'.toNat) then none
  else
    match number 10 decDigit f 0 with
    | some v => if v ≤ 255 then some v else none
    | none => none

/-- One group of an IPv6 literal: 1 to 4 hexadecimal digits, as two bytes. -/
def group (f : Bytes) : Option Bytes :=
  if f.length = 0 ∨ 4 < f.length then none
  else (number 16 hexDigit f 0).map (fun v => [v / 256, v % 256])

/-- All elements of a list of options, if none is missing. -/
def allSome {α : Type} : List (Option α) → Option (List α)
  | [] => some []
  | none :: _ => none
  | some a :: r => (allSome r).map (a :: ·)

/-- A dotted-quad IPv4 literal, as 4 bytes. -/
def parseIPv4 (s : Bytes) : Option Bytes :=
  match allSome ((splitOn '.'.toNat s).map octet) with
  | some o => if o.length = 4 then some o else none
  | none => none

/-- An IPv6 literal of hexadecimal groups with at most one `::`, as 16 bytes.
The mixed form with a dotted-quad tail and zone suffixes are not accepted. -/
def parseIPv6 (s : Bytes) : Option Bytes :=
  let fs := splitOn ':'.toNat s
  let lead := fs.take 2 = [[], []]
  let trail := (fs.reverse.take 2) = [[], []]
  if (fs.head? = some [] ∧ ¬ lead) ∨ (fs.getLast? = some [] ∧ ¬ trail) then none
  else
    let fs1 := if lead then fs.drop 1 else fs
    let fs2 := if trail then fs1.dropLast else fs1
    match Go.indexByte (fs2.map List.length) 0 with
    | none =>
      match allSome (fs2.map group) with
      | some gs => if gs.length = 8 then some gs.flatten else none
      | none => none
    | some k =>
      match allSome ((fs2.take k).map group), allSome ((fs2.drop (k + 1)).map group) with
      | some a, some b =>
        if a.length + b.length ≤ 7 then
          some (a.flatten ++ List.replicate (2 * (8 - (a.length + b.length))) 0 ++ b.flatten)
        else none
      | _, _ => none

/-- An IP literal: 4 bytes for IPv4, 16 bytes for IPv6 (as `net.ParseIP`
decides whether a string is an IP address). -/
def parseIP (s : Bytes) : Option Bytes :=
  match parseIPv4 s with
  | some ip => some ip
  | none => parseIPv6 s

/-- Private (RFC 1918), loopback, link-local or unspecified IPv4 address. -/
def privateV4 : Bytes → Bool
  | [a, b, c, d] =>
    a = 10 ∨ (a = 172 ∧ 16 ≤ b ∧ b ≤ 31) ∨ (a = 192 ∧ b = 168) ∨ a = 127 ∨
      (a = 169 ∧ b = 254) ∨ (a = 0 ∧ b = 0 ∧ c = 0 ∧ d = 0)
  | _ => false

/-- Unique-local (RFC 4193, fc00::/7), loopback (::1), link-local (fe80::/10)
or unspecified (::) IPv6 address. -/
def privateV6 (ip : Bytes) : Bool :=
  ip.length = 16 ∧
    (ip.head? = some 0xfc ∨ ip.head? = some 0xfd ∨
      ip = List.replicate 15 0 ++ [1] ∨
      (ip.head? = some 0xfe ∧ (ip.get? 1).any (fun b => b / 64 = 2)) ∨
      ip = List.replicate 16 0)

end SpecUtil

/-- Modelled from the spec: the helpers `util.IsIP`, `util.IsPrivateIP` and
`util.IsIPV6` (package `util`; only `util/http2frame.go` is among the sources).
The spec calls a host private when it is "a private IP per RFC 1918 /
RFC 4193 / loopback / link-local / unspecified"; a string that is not an IP
literal is neither an IP, nor private, nor IPv6. -/
def specUtil : Util where
  IsIP s := (SpecUtil.parseIP s).isSome
  IsPrivateIP s :=
    match SpecUtil.parseIP s with
    | none => false
    | some ip =>
      match Go.To4 ip with
      | some p4 => SpecUtil.privateV4 p4
      | none => SpecUtil.privateV6 ip
  IsIPV6 s :=
    match SpecUtil.parseIP s with
    | none => false
    | some ip => (Go.To4 ip).isNone

/-! ## Errors and outcomes -/

/-- The error values the embedded code creates or passes on. -/
inductive Error
  /-- `invalid target address:%v, err:%v` (local.go, validateAddr). -/
  | invalidTargetAddress (addr : Bytes) (cause : Go.AddrError)
  /-- `target host,port equals to server host,port, which may caused infinite-loop`. -/
  | loopServerHostPort
  /-- `target host:%v is private ip, which is invalid`. -/
  | privateIP (host : Bytes)
  /-- `target %s is ipv6, but ipv6 network is disabled`. -/
  | ipv6Disabled (host : Bytes)
  /-- `target host:%v equals server host ip, which may caused infinite-loop`. -/
  | loopServerIP (host : Bytes)
  /-- `except got ping frame, but got %v` (local.go, handShakeWithRemote). -/
  | notPingFrame (frameType : Nat)
  /-- The error `io.EOF`. -/
  | EOF
  /-- The error `io.ErrUnexpectedEOF`. -/
  | ErrUnexpectedEOF
  /-- `http2 data frame type:%v is invalid or flag:%v is invalid, both should be 0x0`. -/
  | invalidFrame (frameType flag : Nat)
  /-- `handshake: payload length is invalid` (remote.go, handShake). -/
  | invalidPayloadLength
  /-- An error wrapped by `errors.WithStack`. -/
  | withStack (e : Error)
  /-- An error value produced by a collaborator (pool, cipher, network). -/
  | external (code : Nat)
  /-- The error `io.ErrShortBuffer`. -/
  | ErrShortBuffer
  /-- `socks version is unsupported` (socks/socks5.go, handShake). -/
  | unsupportedVersion
  /-- A `SocksError` (socks/socks5.go), by its RFC 1928 reply code. -/
  | socksError (code : Nat)
deriving DecidableEq, Repr

/-- Result of a Go function that may return an error or panic at run time
(index or slice bounds out of range). -/
inductive Outcome (α : Type)
  | ok (a : α)
  | error (e : Error)
  | panic
deriving DecidableEq, Repr

namespace Outcome

/-- Sequencing: an error or a panic ends the computation. -/
def bind {α β : Type} : Outcome α → (α → Outcome β) → Outcome β
  | ok a, f => f a
  | error e, _ => error e
  | panic, _ => panic

instance : Monad Outcome where
  pure := ok
  bind := bind

/-- The computation returned a Go error (it neither returned a value nor
panicked). -/
def isError {α : Type} : Outcome α → Bool
  | error _ => true
  | _ => false

end Outcome

/-- The index expression `a[i]`: panics when `i` is not below `len(a)`. -/
def index (a : Bytes) (i : Nat) : Outcome Nat :=
  match a.get? i with
  | some b => .ok b
  | none => .panic

/-- The slice expression `a[lo:hi]` with bounds checked against `len(a)`. -/
def slice (a : Bytes) (lo hi : Nat) : Outcome Bytes :=
  if lo ≤ hi ∧ hi ≤ a.length then .ok ((a.take hi).drop lo) else .panic

/-! ## Local endpoint: configuration and address validation -/

/-- Modelled from the spec: the record `Config` (its declaration is not among
the sources).  The spec lists the fields `server`, `server_port`, `password`,
`method`, `disable_ipv6` among others; these are the ones the embedded code
reads. -/
structure Config where
  Server : Bytes
  ServerPort : Int
  Password : Bytes
  Method : Bytes
  DisableIPV6 : Bool
deriving DecidableEq, Repr

/-- The fields of `Easyss` the embedded code reads: `config` and `serverIP`
(easyss.go), and `disableValidateAddr`, which local.go reads. -/
structure Easyss where
  config : Config
  serverIP : Bytes
  disableValidateAddr : Bool
deriving DecidableEq, Repr

namespace Easyss

/-- Accessor `ServerPort` (easyss.go). -/
def ServerPort (ss : Easyss) : Int := ss.config.ServerPort

/-- Accessor `Password` (easyss.go). -/
def Password (ss : Easyss) : Bytes := ss.config.Password

/-- Accessor `Method` (easyss.go). -/
def Method (ss : Easyss) : Bytes := ss.config.Method

/-- Accessor `Server` (easyss.go). -/
def Server (ss : Easyss) : Bytes := ss.config.Server

/-- Accessor `ServerIP` (easyss.go). -/
def ServerIP (ss : Easyss) : Bytes := ss.serverIP

/-- Accessor `DisableIPV6`, called by local.go. -/
def DisableIPV6 (ss : Easyss) : Bool := ss.config.DisableIPV6

end Easyss

/-- The constructor `New` (easyss.go), as far as it sets the fields above:
`serverIP` is the first address `net.LookupHost` returns for a server that is
not an IP literal, and stays empty otherwise.  `LookupHost` is the resolver's
answer (empty when the lookup fails). -/
def New (u : Util) (LookupHost : Bytes → List Bytes) (config : Config) : Easyss :=
  let ips := if !u.IsIP config.Server then LookupHost config.Server else []
  { config := config
    serverIP := match ips with
      | ip :: _ => ip
      | [] => []
    disableValidateAddr := false }

/-- The method `validateAddr` (local.go). -/
def validateAddr (u : Util) (ss : Easyss) (addr : Bytes) : Option Error :=
  match Go.SplitHostPort addr with
  | .error err => some (.invalidTargetAddress addr err)
  | .ok (host, port) =>
    let serverPort := Go.FormatInt ss.ServerPort
    if !u.IsIP host then
      if host = ss.Server ∧ port = serverPort then some .loopServerHostPort
      else none
    else if u.IsPrivateIP host then some (.privateIP host)
    else if ss.DisableIPV6 ∧ u.IsIPV6 host then some (.ipv6Disabled host)
    else if host = ss.ServerIP ∧ port = serverPort then some (.loopServerIP host)
    else none

/-! ## Local endpoint: relay and handshake with the remote -/

/-- Modelled from the spec: the constant `cipherstream.FrameTypeData`
(package `cipherstream` is not among the sources); the spec gives DATA=0x0. -/
def FrameTypeData : Nat := 0x0

/-- Modelled from the spec: the constant `cipherstream.FlagTCP`; the spec gives
the channel flag byte TCP=1. -/
def FlagTCP : Nat := 1

/-- Modelled from the spec: the constant `cipherstream.MethodAes256GCM`, the
name of the header cipher. -/
def MethodAes256GCM : Bytes := lit "aes-256-gcm"

/-- The function `EncodeCipherMethod` (local.go). -/
def EncodeCipherMethod (m : Bytes) : Nat :=
  if m = lit "aes-256-gcm" then 1
  else if m = lit "chacha20-poly1305" then 2
  else 0

/-- A frame handed to `WriteFrame`: the arguments of `cipherstream.NewFrame`
(the cipher argument apart). -/
structure Frame where
  frameType : Nat
  payload : Bytes
  flag : Nat
deriving DecidableEq, Repr

/-- What the code asks of a frame it has read: `IsPingFrame()` and
`FrameType()`. -/
structure ReadFrameInfo where
  IsPingFrame : Bool
  FrameType : Nat
deriving DecidableEq, Repr

/-- The calls the embedded code makes into the pool, the cipher stream and the
network, in the order they are made. -/
inductive Event
  /-- `ss.directRelay(localConn, addr)`. -/
  | directRelay (addr : Bytes)
  /-- `ss.AvailableConn()`: a connection is requested from the pool. -/
  | AvailableConn
  /-- `cipherstream.New(stream, password, method, frameType, flag)` (local.go). -/
  | cipherstreamNew (password method : Bytes) (frameType flag : Nat)
  /-- `csStream.WriteFrame(frame)`. -/
  | WriteFrame (frame : Frame)
  /-- `csStream.ReadFrame()`. -/
  | ReadFrame
  /-- `stream.SetReadDeadline(time.Time{})`. -/
  | SetReadDeadline
  /-- `MarkCipherStreamUnusable(csStream)`. -/
  | MarkCipherStreamUnusable
  /-- `csStream.Close()`. -/
  | CloseStream
  /-- `relay(csStream, localConn, timeout, tryReuse)` (local.go). -/
  | relayLocal (tryReuse : Bool)
  /-- `ss.stat.BytesSend.Add(n1)` and `ss.stat.BytesReceive.Add(n2)`. -/
  | statAdd (n1 n2 : Nat)
  /-- `net.Dial("tcp", addr)` (remote.go). -/
  | Dial (addr : Bytes)
  /-- `cipherstream.New(conn, password, method)` (remote.go). -/
  | cipherstreamNewRemote (password method : Bytes)
  /-- `relay(csStream, tconn)` (remote.go). -/
  | relayRemote
  /-- `tconn.Close()`. -/
  | CloseTarget
  /-- The deferred `conn.Close()` of the connection goroutine. -/
  | CloseConn
deriving DecidableEq, Repr

/-- An identifier of a `net.Conn` value; `none` of `Option Conn` is `nil`. -/
abbrev Conn := Nat

/-- Results of the calls the local endpoint makes into its collaborators. -/
structure LocalEnv where
  /-- The router `ss.HostShouldDirect(host)`. -/
  HostShouldDirect : Bytes → Bool
  /-- Result of `ss.directRelay(localConn, addr)`. -/
  directRelay : Bytes → Option Error
  /-- Error of `ss.AvailableConn()`, if any. -/
  AvailableConn : Option Error
  /-- Result of the first `cipherstream.New` (header cipher). -/
  headerStream : Option Conn × Option Error
  /-- Error of `csStream.WriteFrame(frame)`, if any. -/
  WriteFrame : Frame → Option Error
  /-- Result of `csStream.ReadFrame()`. -/
  ReadFrame : Except Error ReadFrameInfo
  /-- Result of the final `cipherstream.New` (negotiated cipher). -/
  bulkStream : Option Conn × Option Error
  /-- The method `ss.IsNativeOutboundProto()`. -/
  IsNativeOutboundProto : Bool
  /-- Result `(n1, n2, err)` of `relay`. -/
  relay : Bool → Nat × Nat × Option Error

/-- The method `handShakeWithRemote` (local.go): the calls made, the returned
connection and the returned error. -/
def handShakeWithRemote (env : LocalEnv) (ss : Easyss) (addr : Bytes) (flag : Nat) :
    List Event × Option Conn × Option Error :=
  match env.AvailableConn with
  | some err => ([.AvailableConn], none, some err)
  | none =>
    let ev1 := [.AvailableConn, .cipherstreamNew ss.Password MethodAes256GCM FrameTypeData flag]
    match env.headerStream with
    | (cs, some err) => (ev1, cs, some err)
    | (cs, none) =>
      let cipherMethod := EncodeCipherMethod ss.Method
      let frame : Frame := ⟨FrameTypeData, addr ++ [cipherMethod], flag⟩
      let ev2 := ev1 ++ [.WriteFrame frame]
      match env.WriteFrame frame with
      | some err => (ev2, cs, some err)
      | none =>
        let ev3 := ev2 ++ [.ReadFrame]
        match env.ReadFrame with
        | .error err => (ev3, cs, some err)
        | .ok frame =>
          if !frame.IsPingFrame then (ev3, cs, some (.notPingFrame frame.FrameType))
          else
            (ev3 ++ [.SetReadDeadline, .cipherstreamNew ss.Password ss.Method FrameTypeData flag],
              env.bulkStream)

/-- The statement `host, _, _ := net.SplitHostPort(addr)` of `localRelay`: the
host, empty when the split fails. -/
def splitHost (addr : Bytes) : Bytes :=
  match Go.SplitHostPort addr with
  | .ok (host, _) => host
  | .error _ => []

/-- The method `localRelay` (local.go): the calls made and the returned error. -/
def localRelay (u : Util) (env : LocalEnv) (ss : Easyss) (addr : Bytes) :
    List Event × Option Error :=
  let host := splitHost addr
  if env.HostShouldDirect host then ([.directRelay addr], env.directRelay addr)
  else
    let verr := if !ss.disableValidateAddr then validateAddr u ss addr else none
    match verr with
    | some err => ([], some err)
    | none =>
      match handShakeWithRemote env ss addr FlagTCP with
      | (ev, csStream, some err) =>
        (ev ++ (if csStream.isSome then [.MarkCipherStreamUnusable, .CloseStream] else []),
          some err)
      | (ev, _, none) =>
        let tryReuse := if !env.IsNativeOutboundProto then false else true
        match env.relay tryReuse with
        | (n1, n2, err) => (ev ++ [.relayLocal tryReuse, .statAdd n1 n2, .CloseStream], err)

/-- The payloads of the frames written, in order. -/
def writtenPayloads : List Event → List Bytes
  | [] => []
  | .WriteFrame f :: r => f.payload :: writtenPayloads r
  | _ :: r => writtenPayloads r

/-! ## SOCKS addresses (socks/socks5.go) -/

/-- Address type `AtypIPv4` of RFC 1928 section 5. -/
def AtypIPv4 : Nat := 1

/-- Address type `AtypDomainName`. -/
def AtypDomainName : Nat := 3

/-- Address type `AtypIPv6`. -/
def AtypIPv6 : Nat := 4

/-- The constant `net.IPv4len`. -/
def IPv4len : Nat := 4

/-- The constant `net.IPv6len`. -/
def IPv6len : Nat := 16

/-- A SOCKS address (`type Addr []byte`). -/
abbrev Addr := Bytes

/-- The `switch` statement of `Addr.String` (socks/socks5.go): the host and
port strings by address type, both empty for any other type.  Go checks a slice
bound against the capacity and an index against the length; every slice
expression here is followed by an index expression at its upper bound, so the
method panics exactly when that bound is not below the length, and the slice
bound is checked against the length as well. -/
def Addr.hostPort (a : Addr) : Outcome (Bytes × Bytes) := do
  let atyp ← index a 0
  if atyp = AtypDomainName then do
    let n ← index a 1
    let host ← slice a 2 (2 + n)
    let hi ← index a (2 + n)
    let lo ← index a (2 + n + 1)
    pure (host, Go.FormatInt ((hi <<< 8 ||| lo : Nat) : Int))
  else if atyp = AtypIPv4 then do
    let ip ← slice a 1 (1 + IPv4len)
    let hi ← index a (1 + IPv4len)
    let lo ← index a (1 + IPv4len + 1)
    pure (Go.IPString ip, Go.FormatInt ((hi <<< 8 ||| lo : Nat) : Int))
  else if atyp = AtypIPv6 then do
    let ip ← slice a 1 (1 + IPv6len)
    let hi ← index a (1 + IPv6len)
    let lo ← index a (1 + IPv6len + 1)
    pure (Go.IPString ip, Go.FormatInt ((hi <<< 8 ||| lo : Nat) : Int))
  else pure (([] : Bytes), ([] : Bytes))

/-- The method `Addr.String` (socks/socks5.go): `net.JoinHostPort` of the host
and port the `switch` yields. -/
def Addr.String (a : Addr) : Outcome Bytes :=
  Addr.hostPort a >>= fun hp => pure (Go.JoinHostPort hp.1 hp.2)

/-! ## Remote endpoint (remote.go) -/

/-- The cipher `cipherstream.NewAes256GCM` returns, as far as `handShake` uses
it (package `cipherstream` is not among the sources): the nonce size, the tag
overhead and the decryption of a sealed buffer. -/
structure AEAD where
  NonceSize : Nat
  Overhead : Nat
  Decrypt : Bytes → Except Error Bytes

/-- The function `io.ReadFull(stream, buf)` with `len(buf) = n`, on a transport
that delivers the bytes `stream` and then ends: the bytes read and the rest of
the transport, or `io.EOF` when nothing could be read and
`io.ErrUnexpectedEOF` when the transport ended part-way. -/
def ReadFull (stream : Bytes) (n : Nat) : Except Error (Bytes × Bytes) :=
  if n ≤ stream.length then .ok (stream.take n, stream.drop n)
  else if stream.length = 0 then .error .EOF
  else .error .ErrUnexpectedEOF

/-- The function `DecodeCipherMethod` (remote.go). -/
def DecodeCipherMethod (b : Nat) : Bytes :=
  if b = 1 then lit "aes-256-gcm"
  else if b = 2 then lit "chacha20-poly1305"
  else []

/-- The length parse of `handShake`:
`int(h[0])<<16 | int(h[1])<<8 | int(h[2])`. -/
def payloadLength (b0 b1 b2 : Nat) : Nat := b0 <<< 16 ||| b1 <<< 8 ||| b2

/-- The function `handShake` (remote.go) on a transport that delivers `stream`:
the address, the cipher method and the rest of the transport.  Both operands
of the type and flag test are indexed on either branch (the error message
formats both), so both index expressions come first. -/
def handShake (NewAes256GCM : Bytes → Except Error AEAD) (stream password : Bytes) :
    Outcome (Addr × Bytes × Bytes) :=
  match NewAes256GCM password with
  | .error err => .error err
  | .ok gcm =>
    match ReadFull stream (9 + gcm.NonceSize + gcm.Overhead) with
    | .error err => .error (.withStack err)
    | .ok (headerbuf, stream1) =>
      match gcm.Decrypt headerbuf with
      | .error err => .error err
      | .ok headerplain => do
        let b0 ← index headerplain 0
        let b1 ← index headerplain 1
        let b2 ← index headerplain 2
        let payloadlen := payloadLength b0 b1 b2
        let ftype ← index headerplain 3
        let fflag ← index headerplain 4
        if ftype ≠ 0x0 ∨ fflag ≠ 0x0 then .error (.invalidFrame ftype fflag)
        else
          match ReadFull stream1 (payloadlen + gcm.NonceSize + gcm.Overhead) with
          | .error err => .error (.withStack err)
          | .ok (payloadbuf, stream2) =>
            match gcm.Decrypt payloadbuf with
            | .error err => .error err
            | .ok payloadplain =>
              let length := payloadplain.length
              if length ≤ 1 then .error .invalidPayloadLength
              else do
                let last ← index payloadplain (length - 1)
                let ciphermethod := DecodeCipherMethod last
                let addr ← slice payloadplain 0 (length - 1)
                pure (addr, ciphermethod, stream2)

/-- Results of the calls the remote accept loop makes into its collaborators. -/
structure RemoteEnv where
  /-- The constructor `cipherstream.NewAes256GCM`. -/
  NewAes256GCM : Bytes → Except Error AEAD
  /-- Error of `net.Dial("tcp", addr)`, if any. -/
  Dial : Bytes → Option Error
  /-- Error of `cipherstream.New(conn, password, method)`, if any. -/
  cipherstreamNew : Bytes → Bytes → Option Error
  /-- The flag `needclose` that `relay(csStream, tconn)` returns. -/
  relayNeedClose : Bool

/-- One pass through the body of the `for` loop that `tcpServer` (remote.go)
runs for an accepted connection whose transport delivers `stream`: the calls
made, and whether the loop goes on to another pass (`true`) or the goroutine
returns and the deferred `conn.Close()` runs (`false`). -/
def tcpServerPass (u : Util) (env : RemoteEnv) (config : Config) (stream : Bytes) :
    Outcome (List Event × Bool) :=
  match handShake env.NewAes256GCM stream config.Password with
  | .panic => .panic
  | .error _ => .ok ([.CloseConn], false)
  | .ok (addr, ciphermethod, _) => do
    let target ← Addr.String addr
    if target = [] ∨ ciphermethod = [] then pure ([.CloseConn], false)
    else if target = lit "localhost" ∨ target = lit "127.0.0.1" then pure ([.CloseConn], false)
    else if u.IsPrivateIP target then pure ([.CloseConn], false)
    else
      match env.Dial target with
      | some _ => pure ([.Dial target, .CloseConn], false)
      | none =>
        match env.cipherstreamNew config.Password ciphermethod with
        | some _ =>
          pure ([.Dial target, .cipherstreamNewRemote config.Password ciphermethod, .CloseConn], false)
        | none =>
          let ev := [.Dial target, .cipherstreamNewRemote config.Password ciphermethod,
            .relayRemote, .CloseTarget]
          if env.relayNeedClose then pure (ev ++ [.CloseConn], false)
          else pure (ev, true)

/-! ## Frame headers (util/http2frame.go) -/

/-- The conversion `uint32(x)` of a Go integer. -/
def uint32 (x : Int) : Nat := (x % 2 ^ 32).toNat

/-- The four bytes `binary.BigEndian.PutUint32` stores for a 32-bit value. -/
def PutUint32 (v : Nat) : Bytes :=
  [v / 2 ^ 24 % 256, v / 2 ^ 16 % 256, v / 2 ^ 8 % 256, v % 256]

/-- The builtin `copy(dst, src)`: the contents of `dst` afterwards. -/
def copy (dst src : Bytes) : Bytes :=
  src.take dst.length ++ dst.drop src.length

/-- The function `NewHTTP2DataFrameHeader` (util/http2frame.go); `rnd` is the
value `rand.Int31()` returns. -/
def NewHTTP2DataFrameHeader (datalen : Int) (rnd : Nat) : Bytes :=
  let header := List.replicate 9 0
  let length := PutUint32 (uint32 datalen)
  let header := copy (header.take 3) (length.drop 1) ++ header.drop 3
  let header := header.set 3 0x0
  let header := header.set 4 0x0
  header.take 5 ++ copy ((header.drop 5).take 4) (PutUint32 (uint32 rnd)) ++ header.drop 9

/-! ## Reset-stream headers (util/http2frame.go) -/

/-- The conversion `uint16(x)` of a Go integer. -/
def uint16 (x : Int) : Nat := (x % 2 ^ 16).toNat

/-- The two bytes `binary.BigEndian.PutUint16` stores for a 16-bit value. -/
def PutUint16 (v : Nat) : Bytes := [v / 2 ^ 8 % 256, v % 256]

/-- The first statement of both reset-stream encoders: a slice shorter than 9
bytes is replaced by 9 fresh zero bytes, a longer one is cut to its first 9. -/
def fitHeader (dst : Bytes) : Bytes :=
  if dst.length < 9 then List.replicate 9 0
  else if dst.length > 9 then dst.take 9
  else dst

/-- The function `EncodeFINRstStreamHeader` (util/http2frame.go); `rnd` is the
value `rand.Int31()` returns. -/
def EncodeFINRstStreamHeader (dst : Bytes) (rnd : Nat) : Bytes :=
  let dst := fitHeader dst
  let dst := dst.take 1 ++ copy ((dst.drop 1).take 2) (PutUint16 (uint16 4)) ++ dst.drop 3
  let dst := dst.set 3 0x7
  let dst := dst.set 4 0x0
  dst.take 5 ++ copy ((dst.drop 5).take 4) (PutUint32 (uint32 rnd)) ++ dst.drop 9

/-- The function `EncodeACKRstStreamHeader` (util/http2frame.go); `rnd` is the
value `rand.Int31()` returns. -/
def EncodeACKRstStreamHeader (dst : Bytes) (rnd : Nat) : Bytes :=
  let dst := fitHeader dst
  let dst := dst.take 1 ++ copy ((dst.drop 1).take 2) (PutUint16 (uint16 4)) ++ dst.drop 3
  let dst := dst.set 3 0x7
  let dst := dst.set 4 0x1
  dst.take 5 ++ copy ((dst.drop 5).take 4) (PutUint32 (uint32 rnd)) ++ dst.drop 9

/-! ## Reading a SOCKS address (socks/socks5.go) -/

/-- The constant `MaxAddrLen` (socks/socks5.go). -/
def MaxAddrLen : Nat := 1 + 1 + 253 + 2

/-- The constant `CmdConnect`. -/
def CmdConnect : Nat := 1

/-- The error `ErrCommandNotSupported` (`SocksError`, `iota + 1` from
`ErrGeneralFailure`). -/
def ErrCommandNotSupported : Error := .socksError 7

/-- The error `ErrAddressNotSupported`. -/
def ErrAddressNotSupported : Error := .socksError 8

/-- The call `io.ReadFull(r, buf[lo:hi])` on a buffer allocated by `make`
(capacity equal to length) and a transport that delivers `stream` and then
ends.  The slice expression panics when its bounds are out of range;
otherwise the result is the buffer afterwards, the rest of the transport and
the error (`io.EOF` when nothing could be read, `io.ErrUnexpectedEOF` when the
transport ended part-way). -/
def readFullInto (stream buf : Bytes) (lo hi : Nat) : Outcome (Bytes × Bytes × Option Error) :=
  if lo ≤ hi ∧ hi ≤ buf.length then
    let got := stream.take (hi - lo)
    let buf1 := buf.take lo ++ got ++ buf.drop (lo + got.length)
    if hi - lo ≤ stream.length then .ok (buf1, stream.drop (hi - lo), none)
    else if stream.length = 0 then .ok (buf1, [], some .EOF)
    else .ok (buf1, [], some .ErrUnexpectedEOF)
  else .panic

/-- The function `errors.WithStack` on a Go error: `nil` stays `nil`. -/
def WithStack : Option Error → Option Error
  | none => none
  | some e => some (.withStack e)

/-- The function `readAddr` (socks/socks5.go) on a transport that delivers
`stream` and a buffer allocated by `make`: the returned address (`none` is
`nil`), the returned error and the rest of the transport. -/
def readAddr (stream buf : Bytes) : Outcome (Option Addr × Option Error × Bytes) :=
  if buf.length < MaxAddrLen then .ok (none, some (.withStack .ErrShortBuffer), stream)
  else do
    let (buf, stream, err) ← readFullInto stream buf 0 1
    match err with
    | some e => pure (none, some (.withStack e), stream)
    | none =>
      let atyp ← index buf 0
      if atyp = AtypDomainName then do
        let (buf, stream, err) ← readFullInto stream buf 1 2
        match err with
        | some e => pure (none, some (.withStack e), stream)
        | none =>
          let n ← index buf 1
          let (buf, stream, err) ← readFullInto stream buf 2 (2 + n + 2)
          let addr ← slice buf 0 (1 + 1 + n + 2)
          pure (some addr, WithStack err, stream)
      else if atyp = AtypIPv4 then do
        let (buf, stream, err) ← readFullInto stream buf 1 (1 + IPv4len + 2)
        let addr ← slice buf 0 (1 + IPv4len + 2)
        pure (some addr, WithStack err, stream)
      else if atyp = AtypIPv6 then do
        let (buf, stream, err) ← readFullInto stream buf 1 (1 + IPv6len + 2)
        let addr ← slice buf 0 (1 + IPv6len + 2)
        pure (some addr, WithStack err, stream)
      else pure (none, some (.withStack ErrAddressNotSupported), stream)

/-- The function `handShake` of package `socks` (socks/socks5.go) on a
connection that delivers `stream`; `Write` gives the error of `conn.Write` for
the bytes written, if any.  The result is the list of replies written, the
returned address and the returned error. -/
def socksHandShake (Write : Bytes → Option Error) (stream : Bytes) :
    Outcome (List Bytes × Option Addr × Option Error) := do
  let buf := List.replicate MaxAddrLen 0
  let (buf, stream, err) ← readFullInto stream buf 0 2
  match err with
  | some e => pure ([], none, some (.withStack e))
  | none =>
    let ver ← index buf 0
    if ver ≠ 0x05 then pure ([], none, some (.withStack .unsupportedVersion))
    else do
      let nmethods ← index buf 1
      let (buf, stream, err) ← readFullInto stream buf 0 nmethods
      match err with
      | some e => pure ([], none, some (.withStack e))
      | none =>
        match Write [0x05, 0x00] with
        | some e => pure ([[0x05, 0x00]], none, some (.withStack e))
        | none => do
          let (buf, stream, err) ← readFullInto stream buf 0 3
          match err with
          | some e => pure ([[0x05, 0x00]], none, some (.withStack e))
          | none =>
            let cmd ← index buf 1
            if cmd ≠ CmdConnect then pure ([[0x05, 0x00]], none, some ErrCommandNotSupported)
            else do
              let (addr, err, _) ← readAddr stream buf
              match err with
              | some e => pure ([[0x05, 0x00]], none, some (.withStack e))
              | none =>
                pure ([[0x05, 0x00], [5, 0, 0, 1, 0, 0, 0, 0, 0, 0]], addr,
                  Write [5, 0, 0, 1, 0, 0, 0, 0, 0, 0])

/-! ## Sample collaborators for concrete runs -/

/-- A stand-in cipher with the sizes of AES-256-GCM (12-byte nonce, 16-byte
tag): a sealed buffer is the nonce, the plaintext and a tag of sixteen zero
bytes; opening fails on a short buffer or another tag. -/
def sampleAEAD : AEAD where
  NonceSize := 12
  Overhead := 16
  Decrypt buf :=
    if 28 ≤ buf.length ∧ buf.drop (buf.length - 16) = List.replicate 16 0 then
      .ok ((buf.drop 12).take (buf.length - 28))
    else .error (.external 1)

/-- Sealing for `sampleAEAD`, with an all-zero nonce. -/
def sampleSeal (plain : Bytes) : Bytes :=
  List.replicate 12 0 ++ plain ++ List.replicate 16 0

/-- A configuration whose server is the host name `tunnel.example`. -/
def sampleConfig : Config where
  Server := lit "tunnel.example"
  ServerPort := 8443
  Password := lit "secret"
  Method := lit "aes-256-gcm"
  DisableIPV6 := false

/-- A configuration whose server is the IP literal `8.8.8.8`. -/
def sampleConfigIP : Config where
  Server := lit "8.8.8.8"
  ServerPort := 8443
  Password := lit "secret"
  Method := lit "aes-256-gcm"
  DisableIPV6 := false

/-- A local environment in which nothing is routed direct and every
collaborator succeeds; the remote answers with a ping frame. -/
def sampleLocalEnv : LocalEnv where
  HostShouldDirect _ := false
  directRelay _ := none
  AvailableConn := none
  headerStream := (some 1, none)
  WriteFrame _ := none
  ReadFrame := .ok ⟨true, 0x7⟩
  bulkStream := (some 2, none)
  IsNativeOutboundProto := true
  relay _ := (0, 0, none)

/-- A remote environment in which the cipher is `sampleAEAD`, every dial and
every cipher stream succeeds, and the relay leaves the connection reusable. -/
def sampleRemoteEnv : RemoteEnv where
  NewAes256GCM _ := .ok sampleAEAD
  Dial _ := none
  cipherstreamNew _ _ := none
  relayNeedClose := false

/-- The bytes a client puts on the transport for a handshake under
`sampleAEAD`: the sealed DATA header and the sealed payload. -/
def sampleHandshake (payload : Bytes) : Bytes :=
  sampleSeal (NewHTTP2DataFrameHeader payload.length 5) ++ sampleSeal payload

/-! ## Well-formed targets -/

/-- A byte that does not occur has no first index. -/
theorem indexByte_of_not_mem (s : Bytes) (c : Nat) (h : c ∉ s) : Go.indexByte s c = none := by
  induction s with
  | nil => rfl
  | cons b r ih =>
    have hb : b ≠ c := fun e => h (e ▸ List.mem_cons_self _ _)
    have hr : c ∉ r := fun m => h (List.mem_cons_of_mem _ m)
    simp [Go.indexByte, hb, ih hr]

/-- The first index of a byte that follows a prefix without it. -/
theorem indexByte_append (s t : Bytes) (c : Nat) (h : c ∉ s) :
    Go.indexByte (s ++ c :: t) c = some s.length := by
  induction s with
  | nil => simp [Go.indexByte]
  | cons b r ih =>
    have hb : b ≠ c := fun e => h (e ▸ List.mem_cons_self _ _)
    have hr : c ∉ r := fun m => h (List.mem_cons_of_mem _ m)
    simp [Go.indexByte, hb, ih hr]

/-- A byte that does not occur has no last index. -/
theorem lastIndexByte_of_not_mem (s : Bytes) (c : Nat) (h : c ∉ s) :
    Go.lastIndexByte s c = none := by
  induction s with
  | nil => rfl
  | cons b r ih =>
    have hb : b ≠ c := fun e => h (e ▸ List.mem_cons_self _ _)
    have hr : c ∉ r := fun m => h (List.mem_cons_of_mem _ m)
    simp [Go.lastIndexByte, hb, ih hr]

/-- The last index of a byte that is followed by a suffix without it. -/
theorem lastIndexByte_append (s t : Bytes) (c : Nat) (h : c ∉ t) :
    Go.lastIndexByte (s ++ c :: t) c = some s.length := by
  induction s with
  | nil => simp [Go.lastIndexByte, lastIndexByte_of_not_mem t c h]
  | cons b r ih => simp [Go.lastIndexByte, ih]

/-- `net.SplitHostPort` on `host:port`, for a host and a port without colon
or bracket, returns the host and the port. -/
theorem SplitHostPort_plain (host port : Bytes)
    (hh : ':'.toNat ∉ host ∧ '['.toNat ∉ host ∧ ']'.toNat ∉ host)
    (hp : ':'.toNat ∉ port ∧ '['.toNat ∉ port ∧ ']'.toNat ∉ port) :
    Go.SplitHostPort (host ++ ':'.toNat :: port) = .ok (host, port) := by
  obtain ⟨hh1, hh2, hh3⟩ := hh
  obtain ⟨hp1, hp2, hp3⟩ := hp
  have hopen : '['.toNat ∉ host ++ ':'.toNat :: port := by
    simp only [List.mem_append, List.mem_cons, not_or]
    exact ⟨hh2, by decide, hp2⟩
  have hclose : ']'.toNat ∉ host ++ ':'.toNat :: port := by
    simp only [List.mem_append, List.mem_cons, not_or]
    exact ⟨hh3, by decide, hp3⟩
  have hhead : (host ++ ':'.toNat :: port).head? ≠ some '['.toNat := by
    intro e
    exact hopen (List.mem_of_mem_head? e)
  unfold Go.SplitHostPort
  simp only [lastIndexByte_append host port _ hp1, if_neg hhead, List.take_left,
    indexByte_of_not_mem host _ hh1, indexByte_of_not_mem _ _ hopen,
    indexByte_of_not_mem _ _ hclose]
  simp

/-- `net.SplitHostPort` on `[host]:port`, for a host without bracket and a port
without colon or bracket, returns the host and the port. -/
theorem SplitHostPort_bracketed (host port : Bytes)
    (hh : '['.toNat ∉ host ∧ ']'.toNat ∉ host)
    (hp : ':'.toNat ∉ port ∧ '['.toNat ∉ port ∧ ']'.toNat ∉ port) :
    Go.SplitHostPort ('['.toNat :: (host ++ ']'.toNat :: ':'.toNat :: port)) = .ok (host, port) := by
  obtain ⟨hh2, hh3⟩ := hh
  obtain ⟨hp1, hp2, hp3⟩ := hp
  have hlast : Go.lastIndexByte ('['.toNat :: (host ++ ']'.toNat :: ':'.toNat :: port)) ':'.toNat =
      some (host.length + 2) := by
    have e : '['.toNat :: (host ++ ']'.toNat :: ':'.toNat :: port) =
        ('['.toNat :: (host ++ [']'.toNat])) ++ ':'.toNat :: port := by simp
    rw [e, lastIndexByte_append _ port _ hp1]
    simp
  have hfirst : Go.indexByte ('['.toNat :: (host ++ ']'.toNat :: ':'.toNat :: port)) ']'.toNat =
      some (host.length + 1) := by
    have e : '['.toNat :: (host ++ ']'.toNat :: ':'.toNat :: port) =
        ('['.toNat :: host) ++ ']'.toNat :: (':'.toNat :: port) := by simp
    have hn : ']'.toNat ∉ '['.toNat :: host := by
      simp only [List.mem_cons, not_or]
      exact ⟨by decide, hh3⟩
    rw [e, indexByte_append _ _ _ hn]
    simp
  have hopen : Go.indexByte (host ++ ']'.toNat :: ':'.toNat :: port) '['.toNat = none := by
    apply indexByte_of_not_mem
    simp only [List.mem_append, List.mem_cons, not_or]
    exact ⟨hh2, by decide, by decide, hp2⟩
  have hclose : Go.indexByte (':'.toNat :: port) ']'.toNat = none := by
    apply indexByte_of_not_mem
    simp only [List.mem_cons, not_or]
    exact ⟨by decide, hp3⟩
  have hdrop : (host ++ ']'.toNat :: ':'.toNat :: port).drop (host.length + 1) =
      ':'.toNat :: port := by
    have e : host ++ ']'.toNat :: ':'.toNat :: port = (host ++ [']'.toNat]) ++ ':'.toNat :: port := by
      simp
    rw [e]
    apply List.drop_left'
    simp
  have hdrop2 : (host ++ ']'.toNat :: ':'.toNat :: port).drop (host.length + 2) = port := by
    have e : host ++ ']'.toNat :: ':'.toNat :: port =
        (host ++ [']'.toNat, ':'.toNat]) ++ port := by
      simp
    rw [e]
    apply List.drop_left'
    simp
  unfold Go.SplitHostPort
  simp only [hlast, hfirst, List.head?_cons, if_true, List.length_cons, List.length_append,
    List.drop_succ_cons, List.drop_zero, hopen, hdrop, hclose, hdrop2, List.take_succ_cons]
  simp

/-! ## Address validation on the local endpoint -/

/-- For a host that is an IP literal and not private, with IPv6 allowed for it,
`validateAddr` compares the host with the resolved `serverIP` only. -/
theorem validateAddr_public_ip (u : Util) (ss : Easyss) (addr host port : Bytes)
    (hsplit : Go.SplitHostPort addr = .ok (host, port))
    (hip : u.IsIP host = true) (hpriv : u.IsPrivateIP host = false)
    (hv6 : (ss.DisableIPV6 && u.IsIPV6 host) = false) :
    validateAddr u ss addr =
      if host = ss.ServerIP ∧ port = Go.FormatInt ss.ServerPort then some (.loopServerIP host)
      else none := by
  simp only [Bool.and_eq_false_iff] at hv6
  have hv6' : ¬ (ss.DisableIPV6 = true ∧ u.IsIPV6 host = true) := by
    rintro ⟨h1, h2⟩
    rcases hv6 with h | h
    · rw [h1] at h; exact Bool.noConfusion h
    · rw [h2] at h; exact Bool.noConfusion h
  simp [validateAddr, hsplit, hip, hpriv, hv6']

/-- `New` leaves `serverIP` empty when the configured server is an IP literal. -/
theorem New_serverIP_of_ip_literal (u : Util) (LookupHost : Bytes → List Bytes)
    (config : Config) (hip : u.IsIP config.Server = true) :
    (New u LookupHost config).serverIP = [] := by
  simp [New, hip]

/-- C1, at the failing input: the configured server is the IP literal 8.8.8.8
with port 8443, so `New` leaves `serverIP` empty whatever the resolver would
answer; the target 8.8.8.8:8443 splits into exactly the configured host and
port, and `validateAddr` returns no error. -/
theorem validateAddr_accepts_ip_literal_server (LookupHost : Bytes → List Bytes) :
    (New specUtil LookupHost sampleConfigIP).Server = lit "8.8.8.8" ∧
    (New specUtil LookupHost sampleConfigIP).ServerIP = [] ∧
    Go.SplitHostPort (lit "8.8.8.8:8443") =
      .ok ((New specUtil LookupHost sampleConfigIP).Server,
        Go.FormatInt (New specUtil LookupHost sampleConfigIP).ServerPort) ∧
    validateAddr specUtil (New specUtil LookupHost sampleConfigIP) (lit "8.8.8.8:8443") = none := by
  have hnew : New specUtil LookupHost sampleConfigIP = ⟨sampleConfigIP, [], false⟩ := by
    have hip : specUtil.IsIP sampleConfigIP.Server = true := by decide
    simp [New, hip]
  rw [hnew]
  decide

/-- C2: for a target that splits into `host` and `port`, where `host` is an IP
literal that `util.IsPrivateIP` classifies as private, `validateAddr` returns
the private-IP error, whatever the port and the configuration. -/
theorem validateAddr_rejects_private_ip (u : Util) (ss : Easyss) (addr host port : Bytes)
    (hsplit : Go.SplitHostPort addr = .ok (host, port))
    (hip : u.IsIP host = true) (hpriv : u.IsPrivateIP host = true) :
    validateAddr u ss addr = some (.privateIP host) := by
  simp [validateAddr, hsplit, hip, hpriv]

/-- Witness of C2: the target 10.0.0.5:22 under the sample configuration. -/
theorem validateAddr_rejects_private_ip_witness :
    validateAddr specUtil (New specUtil (fun _ => []) sampleConfig) (lit "10.0.0.5:22") =
      some (.privateIP (lit "10.0.0.5")) :=
  validateAddr_rejects_private_ip specUtil (New specUtil (fun _ => []) sampleConfig)
    (lit "10.0.0.5:22") (lit "10.0.0.5") (lit "22") (by decide) (by decide) (by decide)

/-! ## The local relay and the handshake frame -/

/-- C3 as stated fails: with `disableValidateAddr` set, the target 10.0.0.5:22
is not routed direct and `validateAddr` returns an error for it, yet
`localRelay` returns no error, takes a connection from the pool and writes the
handshake frame. -/
theorem localRelay_validation_disabled_counterexample :
    sampleLocalEnv.HostShouldDirect (splitHost (lit "10.0.0.5:22")) = false ∧
    validateAddr specUtil ⟨sampleConfig, [], true⟩ (lit "10.0.0.5:22") =
      some (.privateIP (lit "10.0.0.5")) ∧
    (localRelay specUtil sampleLocalEnv ⟨sampleConfig, [], true⟩ (lit "10.0.0.5:22")).2 = none ∧
    Event.AvailableConn ∈
      (localRelay specUtil sampleLocalEnv ⟨sampleConfig, [], true⟩ (lit "10.0.0.5:22")).1 ∧
    writtenPayloads
      (localRelay specUtil sampleLocalEnv ⟨sampleConfig, [], true⟩ (lit "10.0.0.5:22")).1 =
      [lit "10.0.0.5:22" ++ [1]] := by
  decide

/-- C3, amended: when validation is not disabled (`disableValidateAddr` is
false), for every target that the router does not send direct and for which
`validateAddr` returns an error, `localRelay` returns that error and makes no
call at all: no connection is taken from the pool and no frame is written. -/
theorem localRelay_returns_validation_error (u : Util) (env : LocalEnv) (ss : Easyss)
    (addr : Bytes) (e : Error)
    (hroute : env.HostShouldDirect (splitHost addr) = false)
    (hgate : ss.disableValidateAddr = false)
    (hval : validateAddr u ss addr = some e) :
    localRelay u env ss addr = ([], some e) := by
  simp [localRelay, hroute, hgate, hval]

/-- Witness of the amended C3: the loop target tunnel.example:8443 under the
sample configuration. -/
theorem localRelay_returns_validation_error_witness :
    localRelay specUtil sampleLocalEnv (New specUtil (fun _ => []) sampleConfig)
      (lit "tunnel.example:8443") = ([], some .loopServerHostPort) :=
  localRelay_returns_validation_error specUtil sampleLocalEnv
    (New specUtil (fun _ => []) sampleConfig) (lit "tunnel.example:8443") .loopServerHostPort
    (by decide) (by decide) (by decide)

/-- The only frame `handShakeWithRemote` writes carries the bytes of the target
string followed by the cipher-method byte. -/
theorem handShakeWithRemote_payload (env : LocalEnv) (ss : Easyss) (addr : Bytes) (flag : Nat) :
    writtenPayloads (handShakeWithRemote env ss addr flag).1 = [] ∨
    writtenPayloads (handShakeWithRemote env ss addr flag).1 =
      [addr ++ [EncodeCipherMethod ss.Method]] := by
  unfold handShakeWithRemote
  cases env.AvailableConn with
  | some err => left; rfl
  | none =>
    rcases env.headerStream with ⟨cs, _ | err⟩
    · right
      simp only []
      cases env.WriteFrame _ with
      | some err => rfl
      | none =>
        simp only []
        cases env.ReadFrame with
        | error err => rfl
        | ok frame =>
          simp only []
          split <;> rfl
    · left; rfl

/-- C4 as stated fails: for the target example.com:80 (the string `localRelay`
validates with `net.SplitHostPort`) and method aes-256-gcm, the payload of the
handshake frame is the fourteen bytes of the text `example.com:80` followed by
0x01; it is not the SOCKS5 encoding 0x03, 0x0b, `example.com`, 0x00, 0x50
followed by 0x01. -/
theorem handShakeWithRemote_payload_is_text :
    validateAddr specUtil (New specUtil (fun _ => []) sampleConfig) (lit "example.com:80") = none ∧
    writtenPayloads
      (handShakeWithRemote sampleLocalEnv (New specUtil (fun _ => []) sampleConfig)
        (lit "example.com:80") FlagTCP).1 = [lit "example.com:80" ++ [0x01]] ∧
    lit "example.com:80" ++ [0x01] ≠
      [0x03, 0x0b] ++ lit "example.com" ++ [0x00, 0x50] ++ [0x01] := by
  decide

/-- C4, amended: whenever `handShakeWithRemote` gets a connection from the pool
and the header cipher stream, the one frame it writes is a DATA frame whose
payload is the bytes of the target string `addr` (the host:port text) followed
by the one cipher-method byte; with method aes-256-gcm that byte is 0x01, so
for example.com:80 the payload is the fourteen bytes of the text
`example.com:80` followed by 0x01. -/
theorem handShakeWithRemote_frame_payload (env : LocalEnv) (ss : Easyss) (addr : Bytes)
    (flag : Nat) (cs : Option Conn)
    (hpool : env.AvailableConn = none)
    (hstream : env.headerStream = (cs, none)) :
    writtenPayloads (handShakeWithRemote env ss addr flag).1 =
      [addr ++ [EncodeCipherMethod ss.Method]] ∧
    Event.WriteFrame ⟨FrameTypeData, addr ++ [EncodeCipherMethod ss.Method], flag⟩ ∈
      (handShakeWithRemote env ss addr flag).1 ∧
    (ss.Method = lit "aes-256-gcm" →
      writtenPayloads (handShakeWithRemote env ss addr flag).1 = [addr ++ [0x01]]) := by
  have hw : writtenPayloads (handShakeWithRemote env ss addr flag).1 =
        [addr ++ [EncodeCipherMethod ss.Method]] ∧
      Event.WriteFrame ⟨FrameTypeData, addr ++ [EncodeCipherMethod ss.Method], flag⟩ ∈
        (handShakeWithRemote env ss addr flag).1 := by
    unfold handShakeWithRemote
    simp only [hpool, hstream]
    cases env.WriteFrame _ with
    | some err => exact ⟨rfl, by simp⟩
    | none =>
      simp only []
      cases env.ReadFrame with
      | error err => exact ⟨rfl, by simp⟩
      | ok frame =>
        simp only []
        split
        · exact ⟨rfl, by simp⟩
        · exact ⟨rfl, by simp⟩
  refine ⟨hw.1, hw.2, ?_⟩
  intro hm
  rw [hw.1, hm]
  rfl

/-- Witness of the amended C4: the target example.com:80 with method
aes-256-gcm in the sample environment. -/
theorem handShakeWithRemote_frame_payload_witness :
    writtenPayloads
      (handShakeWithRemote sampleLocalEnv (New specUtil (fun _ => []) sampleConfig)
        (lit "example.com:80") FlagTCP).1 = [lit "example.com:80" ++ [0x01]] :=
  (handShakeWithRemote_frame_payload sampleLocalEnv (New specUtil (fun _ => []) sampleConfig)
    (lit "example.com:80") FlagTCP (some 1) rfl rfl).2.2 rfl

/-! ## The remote handshake -/

/-- An index below the length yields the element. -/
theorem index_of_lt (a : Bytes) (i : Nat) (h : i < a.length) : index a i = .ok (a.getD i 0) := by
  simp [index, List.getD, List.get?_eq_getElem?, List.getElem?_eq_getElem h]

/-- A prefix slice within the length yields the prefix. -/
theorem slice_prefix (a : Bytes) (n : Nat) (h : n ≤ a.length) : slice a 0 n = .ok (a.take n) := by
  simp [slice, h]

/-- Sequencing after a value continues with that value. -/
theorem Outcome.ok_bind {α β : Type} (a : α) (f : α → Outcome β) : (Outcome.ok a >>= f) = f a := rfl

/-- A pure computation is a value. -/
theorem Outcome.pure_eq {α : Type} (a : α) : (pure a : Outcome α) = .ok a := rfl

/-- `io.ReadFull` succeeds when the transport holds enough bytes. -/
theorem ReadFull_of_le (stream : Bytes) (n : Nat) (h : n ≤ stream.length) :
    ReadFull stream n = .ok (stream.take n, stream.drop n) := by
  simp [ReadFull, h]

/-- `io.ReadFull` fails when the transport ends early. -/
theorem ReadFull_of_lt (stream : Bytes) (n : Nat) (h : stream.length < n) :
    ∃ err, ReadFull stream n = .error err := by
  unfold ReadFull
  rw [if_neg (Nat.not_le.mpr h)]
  split
  · exact ⟨_, rfl⟩
  · exact ⟨_, rfl⟩

/-- The remote `handShake` once the sealed header has been read and opened to a
plaintext of at least five bytes. -/
theorem handShake_header_ok (NewAes256GCM : Bytes → Except Error AEAD) (gcm : AEAD)
    (stream password hp : Bytes)
    (hgcm : NewAes256GCM password = .ok gcm)
    (hlen : 9 + gcm.NonceSize + gcm.Overhead ≤ stream.length)
    (hdec : gcm.Decrypt (stream.take (9 + gcm.NonceSize + gcm.Overhead)) = .ok hp)
    (h5 : 5 ≤ hp.length) :
    handShake NewAes256GCM stream password =
      if hp.getD 3 0 ≠ 0 ∨ hp.getD 4 0 ≠ 0 then .error (.invalidFrame (hp.getD 3 0) (hp.getD 4 0))
      else
        match ReadFull (stream.drop (9 + gcm.NonceSize + gcm.Overhead))
            (payloadLength (hp.getD 0 0) (hp.getD 1 0) (hp.getD 2 0) +
              gcm.NonceSize + gcm.Overhead) with
        | .error err => .error (.withStack err)
        | .ok (payloadbuf, stream2) =>
          match gcm.Decrypt payloadbuf with
          | .error err => .error err
          | .ok pp =>
            if pp.length ≤ 1 then .error .invalidPayloadLength
            else .ok (pp.take (pp.length - 1), DecodeCipherMethod (pp.getD (pp.length - 1) 0), stream2) := by
  unfold handShake
  simp only [hgcm, ReadFull_of_le _ _ hlen, hdec]
  rw [index_of_lt hp 0 (by omega), index_of_lt hp 1 (by omega), index_of_lt hp 2 (by omega),
    index_of_lt hp 3 (by omega), index_of_lt hp 4 (by omega)]
  simp only [Outcome.ok_bind]
  split
  · rfl
  · split
    · rfl
    · split
      · rfl
      · rename_i pp hpp
        split
        · rfl
        · rename_i hlen1
          rw [index_of_lt pp (pp.length - 1) (by omega), slice_prefix pp (pp.length - 1) (by omega)]
          rfl

/-- C5: the remote `handShake` returns an error, and so no address, whenever
the transport ends before the full header is read, the header fails to open,
the decoded header's type byte is not DATA (0x0), the transport ends before the
full payload is read, the payload fails to open, or the decoded payload has
length at most 1 (the decoded header having its type and flag bytes in the
last four cases). -/
theorem handShake_rejects (NewAes256GCM : Bytes → Except Error AEAD) (gcm : AEAD)
    (stream password : Bytes)
    (hgcm : NewAes256GCM password = .ok gcm)
    (hfault :
      stream.length < 9 + gcm.NonceSize + gcm.Overhead ∨
      (∃ err, gcm.Decrypt (stream.take (9 + gcm.NonceSize + gcm.Overhead)) = .error err) ∨
      (∃ hp, gcm.Decrypt (stream.take (9 + gcm.NonceSize + gcm.Overhead)) = .ok hp ∧
        5 ≤ hp.length ∧ hp.getD 3 0 ≠ 0x0) ∨
      (∃ hp, gcm.Decrypt (stream.take (9 + gcm.NonceSize + gcm.Overhead)) = .ok hp ∧
        5 ≤ hp.length ∧
        (stream.drop (9 + gcm.NonceSize + gcm.Overhead)).length <
          payloadLength (hp.getD 0 0) (hp.getD 1 0) (hp.getD 2 0) +
            gcm.NonceSize + gcm.Overhead) ∨
      (∃ hp err, gcm.Decrypt (stream.take (9 + gcm.NonceSize + gcm.Overhead)) = .ok hp ∧
        5 ≤ hp.length ∧
        gcm.Decrypt ((stream.drop (9 + gcm.NonceSize + gcm.Overhead)).take
          (payloadLength (hp.getD 0 0) (hp.getD 1 0) (hp.getD 2 0) +
            gcm.NonceSize + gcm.Overhead)) = .error err) ∨
      (∃ hp pp, gcm.Decrypt (stream.take (9 + gcm.NonceSize + gcm.Overhead)) = .ok hp ∧
        5 ≤ hp.length ∧
        gcm.Decrypt ((stream.drop (9 + gcm.NonceSize + gcm.Overhead)).take
          (payloadLength (hp.getD 0 0) (hp.getD 1 0) (hp.getD 2 0) +
            gcm.NonceSize + gcm.Overhead)) = .ok pp ∧ pp.length ≤ 1)) :
    ∃ err, handShake NewAes256GCM stream password = .error err := by
  by_cases hlen : 9 + gcm.NonceSize + gcm.Overhead ≤ stream.length
  swap
  · obtain ⟨err, herr⟩ := ReadFull_of_lt stream _ (Nat.lt_of_not_le hlen)
    exact ⟨.withStack err, by simp [handShake, hgcm, herr]⟩
  rcases hfault with h | ⟨err, h⟩ | ⟨hp, hdec, h5, ht⟩ | ⟨hp, hdec, h5, hshort⟩ |
    ⟨hp, err, hdec, h5, hperr⟩ | ⟨hp, pp, hdec, h5, hpp, hle⟩
  · omega
  · exact ⟨err, by simp [handShake, hgcm, ReadFull_of_le _ _ hlen, h]⟩
  · rw [handShake_header_ok NewAes256GCM gcm stream password hp hgcm hlen hdec h5,
      if_pos (Or.inl ht)]
    exact ⟨_, rfl⟩
  · rw [handShake_header_ok NewAes256GCM gcm stream password hp hgcm hlen hdec h5]
    split
    · exact ⟨_, rfl⟩
    · obtain ⟨err, herr⟩ := ReadFull_of_lt _ _ hshort
      rw [herr]
      exact ⟨_, rfl⟩
  · rw [handShake_header_ok NewAes256GCM gcm stream password hp hgcm hlen hdec h5]
    split
    · exact ⟨_, rfl⟩
    · by_cases hplen : payloadLength (hp.getD 0 0) (hp.getD 1 0) (hp.getD 2 0) +
          gcm.NonceSize + gcm.Overhead ≤ (stream.drop (9 + gcm.NonceSize + gcm.Overhead)).length
      · rw [ReadFull_of_le _ _ hplen]
        simp only [hperr]
        exact ⟨_, rfl⟩
      · obtain ⟨err1, herr1⟩ := ReadFull_of_lt _ _ (Nat.lt_of_not_le hplen)
        rw [herr1]
        exact ⟨_, rfl⟩
  · rw [handShake_header_ok NewAes256GCM gcm stream password hp hgcm hlen hdec h5]
    split
    · exact ⟨_, rfl⟩
    · by_cases hplen : payloadLength (hp.getD 0 0) (hp.getD 1 0) (hp.getD 2 0) +
          gcm.NonceSize + gcm.Overhead ≤ (stream.drop (9 + gcm.NonceSize + gcm.Overhead)).length
      · rw [ReadFull_of_le _ _ hplen]
        simp only [hpp, if_pos hle]
        exact ⟨_, rfl⟩
      · obtain ⟨err1, herr1⟩ := ReadFull_of_lt _ _ (Nat.lt_of_not_le hplen)
        rw [herr1]
        exact ⟨_, rfl⟩

/-- Witness of C5: a frame of type RST_STREAM (0x7) in place of the handshake
frame is answered with an error. -/
theorem handShake_rejects_witness :
    ∃ err, handShake (fun _ => .ok sampleAEAD)
      (sampleSeal [0, 0, 4, 0x7, 0x1, 0, 0, 0, 5] ++ sampleSeal [1, 2, 3, 4]) (lit "secret") =
        .error err :=
  handShake_rejects (fun _ => .ok sampleAEAD) sampleAEAD
    (sampleSeal [0, 0, 4, 0x7, 0x1, 0, 0, 0, 5] ++ sampleSeal [1, 2, 3, 4]) (lit "secret") rfl
    (Or.inr (Or.inr (Or.inl ⟨[0, 0, 4, 0x7, 0x1, 0, 0, 0, 5], by decide, by decide, by decide⟩)))

/-- C6: handshake payload round trip.  When the transport delivers a sealed
header that opens to a 9-byte DATA header (type 0x0, flags 0x0) whose length
field matches the sealed payload that follows, and that payload opens to
`A ++ [EncodeCipherMethod m]` with `A` non-empty and `m` one of the two
supported methods, `handShake` returns exactly `A` and `m` (and the rest of
the transport), with no error. -/
theorem handShake_roundtrip (NewAes256GCM : Bytes → Except Error AEAD) (gcm : AEAD)
    (password headerbuf payloadbuf rest hp A m : Bytes)
    (hgcm : NewAes256GCM password = .ok gcm)
    (hhlen : headerbuf.length = 9 + gcm.NonceSize + gcm.Overhead)
    (hhdec : gcm.Decrypt headerbuf = .ok hp)
    (hhp : hp.length = 9) (htype : hp.getD 3 0 = 0x0) (hflag : hp.getD 4 0 = 0x0)
    (hplen : payloadbuf.length =
      payloadLength (hp.getD 0 0) (hp.getD 1 0) (hp.getD 2 0) + gcm.NonceSize + gcm.Overhead)
    (hpdec : gcm.Decrypt payloadbuf = .ok (A ++ [EncodeCipherMethod m]))
    (hA : A ≠ [])
    (hm : m = lit "aes-256-gcm" ∨ m = lit "chacha20-poly1305") :
    handShake NewAes256GCM (headerbuf ++ payloadbuf ++ rest) password = .ok (A, m, rest) := by
  have htake : (headerbuf ++ payloadbuf ++ rest).take (9 + gcm.NonceSize + gcm.Overhead) =
      headerbuf := by
    rw [← hhlen, List.append_assoc, List.take_left']
    rfl
  have hdrop : (headerbuf ++ payloadbuf ++ rest).drop (9 + gcm.NonceSize + gcm.Overhead) =
      payloadbuf ++ rest := by
    rw [← hhlen, List.append_assoc, List.drop_left']
    rfl
  have hlen : 9 + gcm.NonceSize + gcm.Overhead ≤ (headerbuf ++ payloadbuf ++ rest).length := by
    simp only [List.length_append]
    omega
  rw [handShake_header_ok NewAes256GCM gcm _ password hp hgcm hlen (by rw [htake]; exact hhdec)
    (by omega), hdrop]
  have hnot : ¬ (hp.getD 3 0 ≠ 0 ∨ hp.getD 4 0 ≠ 0) := by
    rw [htype, hflag]
    simp
  rw [if_neg hnot, ReadFull_of_le _ _ (by simp only [List.length_append]; omega), ← hplen,
    List.take_left', List.drop_left']
  simp only [hpdec]
  have hApos : 0 < A.length := List.length_pos.mpr hA
  have hl : ¬ (A ++ [EncodeCipherMethod m]).length ≤ 1 := by
    simp only [List.length_append, List.length_singleton]
    omega
  rw [if_neg hl]
  have e1 : (A ++ [EncodeCipherMethod m]).length - 1 = A.length := by simp
  rw [e1, List.take_left']
  have e2 : (A ++ [EncodeCipherMethod m]).getD A.length 0 = EncodeCipherMethod m := by
    simp [List.getD]
  rw [e2]
  rcases hm with h | h <;> subst h <;> rfl
  all_goals rfl

/-- Witness of C6: the SOCKS address of example.com:80 with method
aes-256-gcm, sealed under `sampleAEAD`. -/
theorem handShake_roundtrip_witness :
    handShake (fun _ => .ok sampleAEAD)
      (sampleSeal (NewHTTP2DataFrameHeader 16 5) ++
        sampleSeal ([0x03, 11] ++ lit "example.com" ++ [0, 80] ++
          [EncodeCipherMethod (lit "aes-256-gcm")]) ++ []) (lit "secret") =
      .ok ([0x03, 11] ++ lit "example.com" ++ [0, 80], lit "aes-256-gcm", []) :=
  handShake_roundtrip (fun _ => .ok sampleAEAD) sampleAEAD (lit "secret")
    (sampleSeal (NewHTTP2DataFrameHeader 16 5))
    (sampleSeal ([0x03, 11] ++ lit "example.com" ++ [0, 80] ++
      [EncodeCipherMethod (lit "aes-256-gcm")]))
    [] (NewHTTP2DataFrameHeader 16 5) ([0x03, 11] ++ lit "example.com" ++ [0, 80])
    (lit "aes-256-gcm") rfl (by decide) (by decide) (by decide) (by decide) (by decide)
    (by decide) (by decide) (by decide) (Or.inl rfl)

/-! ## Cipher selector -/

/-- C7: cipher selector mapping.  `EncodeCipherMethod` maps aes-256-gcm to
0x01, chacha20-poly1305 to 0x02 and every other string to 0x00; decoding the
encoded byte gives back the two supported names and the empty method for every
other string; and `DecodeCipherMethod b` is non-empty exactly when `b` is 1
or 2. -/
theorem cipher_method_mapping :
    EncodeCipherMethod (lit "aes-256-gcm") = 0x01 ∧
    EncodeCipherMethod (lit "chacha20-poly1305") = 0x02 ∧
    (∀ m : Bytes, m ≠ lit "aes-256-gcm" → m ≠ lit "chacha20-poly1305" →
      EncodeCipherMethod m = 0x00) ∧
    DecodeCipherMethod (EncodeCipherMethod (lit "aes-256-gcm")) = lit "aes-256-gcm" ∧
    DecodeCipherMethod (EncodeCipherMethod (lit "chacha20-poly1305")) =
      lit "chacha20-poly1305" ∧
    (∀ m : Bytes, m ≠ lit "aes-256-gcm" → m ≠ lit "chacha20-poly1305" →
      DecodeCipherMethod (EncodeCipherMethod m) = []) ∧
    (∀ b : Nat, DecodeCipherMethod b ≠ [] ↔ (b = 1 ∨ b = 2)) := by
  have henc : ∀ m : Bytes, m ≠ lit "aes-256-gcm" → m ≠ lit "chacha20-poly1305" →
      EncodeCipherMethod m = 0 := by
    intro m h1 h2
    simp [EncodeCipherMethod, h1, h2]
  refine ⟨by decide, by decide, henc, by decide, by decide, ?_, ?_⟩
  · intro m h1 h2
    rw [henc m h1 h2]
    rfl
  · intro b
    unfold DecodeCipherMethod
    by_cases h1 : b = 1
    · subst h1
      simp
      decide
    · by_cases h2 : b = 2
      · subst h2
        simp
        decide
      · simp [h1, h2]

/-- Witness of C7: the unsupported method name rc4-md5 is encoded as 0x00 and
decoded as the empty method. -/
theorem cipher_method_mapping_witness :
    EncodeCipherMethod (lit "rc4-md5") = 0x00 ∧
    DecodeCipherMethod (EncodeCipherMethod (lit "rc4-md5")) = [] :=
  ⟨cipher_method_mapping.2.2.1 (lit "rc4-md5") (by decide) (by decide),
    cipher_method_mapping.2.2.2.2.2.1 (lit "rc4-md5") (by decide) (by decide)⟩

/-- A sequence that yields a value ran both of its parts to a value. -/
theorem Outcome.bind_eq_ok {α β : Type} (x : Outcome α) (f : α → Outcome β) (b : β)
    (h : (x >>= f) = .ok b) : ∃ a, x = .ok a ∧ f a = .ok b := by
  cases x with
  | ok a => exact ⟨a, rfl, h⟩
  | error e => exact Outcome.noConfusion h
  | panic => exact Outcome.noConfusion h

/-- Whatever `Addr.String` returns is a result of `net.JoinHostPort`. -/
theorem Addr_String_is_join (a : Addr) (s : Bytes) (h : Addr.String a = .ok s) :
    ∃ host port, s = Go.JoinHostPort host port := by
  obtain ⟨hp, _, h1⟩ := Outcome.bind_eq_ok _ _ _ h
  exact ⟨hp.1, hp.2, (Outcome.ok.inj h1).symm⟩

/-- A result of `net.JoinHostPort` contains a colon. -/
theorem JoinHostPort_has_colon (host port : Bytes) : ':'.toNat ∈ Go.JoinHostPort host port := by
  unfold Go.JoinHostPort
  split
  · simp [lit]
  · simp [lit]

/-- The value of `addr.String()` is never `localhost` and never `127.0.0.1`:
the comparison of the remote accept loop cannot hold. -/
theorem Addr_String_ne_localhost (a : Addr) (s : Bytes) (h : Addr.String a = .ok s) :
    s ≠ lit "localhost" ∧ s ≠ lit "127.0.0.1" := by
  obtain ⟨host, port, hs⟩ := Addr_String_is_join a s h
  have hc : ':'.toNat ∈ s := hs ▸ JoinHostPort_has_colon host port
  constructor
  · intro he
    rw [he] at hc
    revert hc
    decide
  · intro he
    rw [he] at hc
    revert hc
    decide

/-! ## The remote accept loop -/

/-- No pass through the accept loop writes a frame to the client transport. -/
theorem tcpServerPass_writes_no_frame (u : Util) (env : RemoteEnv) (config : Config)
    (stream : Bytes) (evs : List Event) (again : Bool)
    (h : tcpServerPass u env config stream = .ok (evs, again)) :
    writtenPayloads evs = [] := by
  unfold tcpServerPass at h
  split at h
  · exact Outcome.noConfusion h
  · cases h
    rfl
  · obtain ⟨target, _, h1⟩ := Outcome.bind_eq_ok _ _ _ h
    simp only [] at h1
    repeat' split at h1
    all_goals (cases h1; rfl)

/-- C8, at the failing inputs: handshakes that decode to the domain address
localhost:80, the IPv4 address 127.0.0.1:80 and the private IPv4 address
10.0.0.5:22 are accepted; `addr.String()` is the host:port string, which equals
neither `localhost` nor `127.0.0.1` and is not an IP literal, so each pass
dials the target, runs the relay and keeps the transport open for another
pass. -/
theorem tcpServer_dials_localhost_and_private_targets :
    Addr.String ([0x03, 9] ++ lit "localhost" ++ [0, 80]) = .ok (lit "localhost:80") ∧
    tcpServerPass specUtil sampleRemoteEnv sampleConfig
        (sampleHandshake ([0x03, 9] ++ lit "localhost" ++ [0, 80] ++ [0x01])) =
      .ok ([.Dial (lit "localhost:80"),
        .cipherstreamNewRemote (lit "secret") (lit "aes-256-gcm"), .relayRemote, .CloseTarget],
        true) ∧
    Addr.String [0x01, 127, 0, 0, 1, 0, 80] = .ok (lit "127.0.0.1:80") ∧
    tcpServerPass specUtil sampleRemoteEnv sampleConfig
        (sampleHandshake [0x01, 127, 0, 0, 1, 0, 80, 0x01]) =
      .ok ([.Dial (lit "127.0.0.1:80"),
        .cipherstreamNewRemote (lit "secret") (lit "aes-256-gcm"), .relayRemote, .CloseTarget],
        true) ∧
    Addr.String [0x01, 10, 0, 0, 5, 0, 22] = .ok (lit "10.0.0.5:22") ∧
    tcpServerPass specUtil sampleRemoteEnv sampleConfig
        (sampleHandshake [0x01, 10, 0, 0, 5, 0, 22, 0x01]) =
      .ok ([.Dial (lit "10.0.0.5:22"),
        .cipherstreamNewRemote (lit "secret") (lit "aes-256-gcm"), .relayRemote, .CloseTarget],
        true) := by
  decide

/-- C9 as stated fails: after the accepted handshake for example.com:80 and a
successful dial, the pass goes from `net.Dial` to `cipherstream.New` to `relay`
and writes no frame to the client transport, although `handShakeWithRemote` of
local.go, reading anything but a ping frame next, returns the error
`except got ping frame`. -/
theorem tcpServer_writes_no_ping :
    tcpServerPass specUtil sampleRemoteEnv sampleConfig
        (sampleHandshake ([0x03, 11] ++ lit "example.com" ++ [0, 80] ++ [0x01])) =
      .ok ([.Dial (lit "example.com:80"),
        .cipherstreamNewRemote (lit "secret") (lit "aes-256-gcm"), .relayRemote, .CloseTarget],
        true) ∧
    writtenPayloads [.Dial (lit "example.com:80"),
        .cipherstreamNewRemote (lit "secret") (lit "aes-256-gcm"), .relayRemote, .CloseTarget] =
      [] ∧
    (handShakeWithRemote { sampleLocalEnv with ReadFrame := .ok ⟨false, FrameTypeData⟩ }
        (New specUtil (fun _ => []) sampleConfig) (lit "example.com:80") FlagTCP).2.2 =
      some (.notPingFrame FrameTypeData) := by
  decide

/-- C9, amended: after every accepted handshake and successful dial of the
target, the pass of the accept loop creates the cipher stream and, when that
succeeds, starts the relay; it writes no frame to the client transport, so no
ping frame precedes the relay.  The ping frame is what `handShakeWithRemote`
of local.go requires to read next: on any other frame it returns the error
`except got ping frame`. -/
theorem tcpServerPass_after_dial (u : Util) (env : RemoteEnv) (config : Config)
    (stream addr method rest target : Bytes)
    (hhs : handShake env.NewAes256GCM stream config.Password = .ok (addr, method, rest))
    (hstr : Addr.String addr = .ok target)
    (hnonempty : target ≠ [] ∧ method ≠ [])
    (hlocal : target ≠ lit "localhost" ∧ target ≠ lit "127.0.0.1")
    (hprivate : u.IsPrivateIP target = false)
    (hdial : env.Dial target = none) :
    tcpServerPass u env config stream =
      .ok (match env.cipherstreamNew config.Password method with
        | some _ =>
          ([.Dial target, .cipherstreamNewRemote config.Password method, .CloseConn], false)
        | none =>
          if env.relayNeedClose then
            ([.Dial target, .cipherstreamNewRemote config.Password method, .relayRemote,
              .CloseTarget, .CloseConn], false)
          else
            ([.Dial target, .cipherstreamNewRemote config.Password method, .relayRemote,
              .CloseTarget], true)) ∧
    (∀ (evs : List Event) (again : Bool),
      tcpServerPass u env config stream = .ok (evs, again) → writtenPayloads evs = []) ∧
    (∀ (lenv : LocalEnv) (ss : Easyss) (target1 : Bytes) (flag : Nat) (cs : Option Conn)
      (frame : ReadFrameInfo),
      lenv.AvailableConn = none → lenv.headerStream = (cs, none) →
      lenv.WriteFrame ⟨FrameTypeData, target1 ++ [EncodeCipherMethod ss.Method], flag⟩ = none →
      lenv.ReadFrame = .ok frame → frame.IsPingFrame = false →
      (handShakeWithRemote lenv ss target1 flag).2.2 = some (.notPingFrame frame.FrameType)) := by
  refine ⟨?_, ?_, ?_⟩
  rotate_left 2
  · intro lenv ss target1 flag cs frame hp hs hw hr hping
    unfold handShakeWithRemote
    simp only [hp, hs, hw, hr, hping]
    rfl
  · unfold tcpServerPass
    rw [hhs]
    simp only [hstr, Outcome.ok_bind]
    rw [if_neg (by simp [hnonempty.1, hnonempty.2]), if_neg (by simp [hlocal.1, hlocal.2])]
    simp only [hprivate, hdial]
    cases env.cipherstreamNew config.Password method with
    | some e => rfl
    | none =>
      simp only []
      cases env.relayNeedClose <;> rfl
  · intro evs again h
    unfold tcpServerPass at h
    rw [hhs] at h
    simp only [hstr, Outcome.ok_bind] at h
    rw [if_neg (by simp [hnonempty.1, hnonempty.2]), if_neg (by simp [hlocal.1, hlocal.2])] at h
    simp only [hprivate, hdial] at h
    cases hc : env.cipherstreamNew config.Password method with
    | some e =>
      rw [hc] at h
      cases h
      rfl
    | none =>
      rw [hc] at h
      simp only [] at h
      cases hn : env.relayNeedClose <;> rw [hn] at h <;> cases h <;> rfl

/-- Witness of the amended C9: the accepted handshake for example.com:80 in
the sample environment. -/
theorem tcpServerPass_after_dial_witness :
    tcpServerPass specUtil sampleRemoteEnv sampleConfig
        (sampleHandshake ([0x03, 11] ++ lit "example.com" ++ [0, 80] ++ [0x01])) =
      .ok ([.Dial (lit "example.com:80"),
        .cipherstreamNewRemote (lit "secret") (lit "aes-256-gcm"), .relayRemote, .CloseTarget],
        true) :=
  (tcpServerPass_after_dial specUtil sampleRemoteEnv sampleConfig
    (sampleHandshake ([0x03, 11] ++ lit "example.com" ++ [0, 80] ++ [0x01]))
    ([0x03, 11] ++ lit "example.com" ++ [0, 80]) (lit "aes-256-gcm") []
    (lit "example.com:80") (by decide) (by decide) (by decide) (by decide) (by decide)
    (by decide)).1

/-! ## Data-frame header -/

/-- The length parse of `handShake` on three bytes is their big-endian value. -/
theorem payloadLength_eq (b0 b1 b2 : Nat) (h1 : b1 < 256) (h2 : b2 < 256) :
    payloadLength b0 b1 b2 = b0 * 65536 + b1 * 256 + b2 := by
  unfold payloadLength
  rw [Nat.shiftLeft_eq, Nat.shiftLeft_eq]
  have e1 : b0 * 2 ^ 16 = 2 ^ 16 * b0 := Nat.mul_comm _ _
  have e2 : b1 * 2 ^ 8 = 2 ^ 8 * b1 := Nat.mul_comm _ _
  have hlt : b1 * 2 ^ 8 < 2 ^ 16 := by omega
  rw [e1, ← Nat.mul_add_lt_is_or hlt b0]
  have e3 : 2 ^ 16 * b0 + b1 * 2 ^ 8 = 2 ^ 8 * (256 * b0 + b1) := by omega
  rw [e3, ← Nat.mul_add_lt_is_or (by omega : b2 < 2 ^ 8)]
  omega

/-- The nine bytes `NewHTTP2DataFrameHeader` returns. -/
theorem NewHTTP2DataFrameHeader_eq (datalen : Int) (rnd : Nat) :
    NewHTTP2DataFrameHeader datalen rnd =
      [uint32 datalen / 2 ^ 16 % 256, uint32 datalen / 2 ^ 8 % 256, uint32 datalen % 256, 0, 0,
        uint32 rnd / 2 ^ 24 % 256, uint32 rnd / 2 ^ 16 % 256, uint32 rnd / 2 ^ 8 % 256,
        uint32 rnd % 256] := by
  simp [NewHTTP2DataFrameHeader, copy, PutUint32, List.replicate]

/-- C10: data-frame header round trip.  For every `datalen` with
0 ≤ datalen < 2^24 (and every stream identifier drawn), the header
`NewHTTP2DataFrameHeader` returns has exactly 9 bytes, bytes 0..2 are `datalen`
in 24-bit big-endian, byte 3 (type) and byte 4 (flags) are 0x00, the length
parse of the remote `handShake` on bytes 0..2 returns `datalen`, and the type
and flags test of `handShake` does not reject the header. -/
theorem NewHTTP2DataFrameHeader_roundtrip (datalen : Int) (rnd : Nat)
    (h0 : 0 ≤ datalen) (h1 : datalen < 2 ^ 24) :
    (NewHTTP2DataFrameHeader datalen rnd).length = 9 ∧
    (NewHTTP2DataFrameHeader datalen rnd).take 3 =
      [datalen.toNat / 2 ^ 16 % 256, datalen.toNat / 2 ^ 8 % 256, datalen.toNat % 256] ∧
    (NewHTTP2DataFrameHeader datalen rnd).get? 3 = some 0x0 ∧
    (NewHTTP2DataFrameHeader datalen rnd).get? 4 = some 0x0 ∧
    (payloadLength ((NewHTTP2DataFrameHeader datalen rnd).getD 0 0)
      ((NewHTTP2DataFrameHeader datalen rnd).getD 1 0)
      ((NewHTTP2DataFrameHeader datalen rnd).getD 2 0) : Int) = datalen ∧
    ¬ ((NewHTTP2DataFrameHeader datalen rnd).getD 3 0 ≠ 0x0 ∨
      (NewHTTP2DataFrameHeader datalen rnd).getD 4 0 ≠ 0x0) := by
  have hu : uint32 datalen = datalen.toNat := by
    unfold uint32
    congr 1
    exact Int.emod_eq_of_lt h0 (by omega)
  have hd : datalen.toNat < 2 ^ 24 := by omega
  rw [NewHTTP2DataFrameHeader_eq, hu]
  refine ⟨rfl, rfl, rfl, rfl, ?_, by simp⟩
  simp only [List.getD_cons_zero, List.getD_cons_succ]
  rw [payloadLength_eq _ _ _ (Nat.mod_lt _ (by norm_num)) (Nat.mod_lt _ (by norm_num))]
  have : datalen.toNat / 2 ^ 16 % 256 * 65536 + datalen.toNat / 2 ^ 8 % 256 * 256 + datalen.toNat % 256 = datalen.toNat := by
    omega
  rw [this]
  exact Int.toNat_of_nonneg h0

/-- Witness of C10: the header for a payload of 0x123456 bytes. -/
theorem NewHTTP2DataFrameHeader_roundtrip_witness :
    (NewHTTP2DataFrameHeader 0x123456 5).length = 9 ∧
    (NewHTTP2DataFrameHeader 0x123456 5).take 3 =
      [(0x123456 : Int).toNat / 2 ^ 16 % 256, (0x123456 : Int).toNat / 2 ^ 8 % 256,
        (0x123456 : Int).toNat % 256] ∧
    (NewHTTP2DataFrameHeader 0x123456 5).get? 3 = some 0x0 ∧
    (NewHTTP2DataFrameHeader 0x123456 5).get? 4 = some 0x0 ∧
    (payloadLength ((NewHTTP2DataFrameHeader 0x123456 5).getD 0 0)
      ((NewHTTP2DataFrameHeader 0x123456 5).getD 1 0)
      ((NewHTTP2DataFrameHeader 0x123456 5).getD 2 0) : Int) = 0x123456 ∧
    ¬ ((NewHTTP2DataFrameHeader 0x123456 5).getD 3 0 ≠ 0x0 ∨
      (NewHTTP2DataFrameHeader 0x123456 5).getD 4 0 ≠ 0x0) :=
  NewHTTP2DataFrameHeader_roundtrip 0x123456 5 (by decide) (by decide)

/-! ## Reset-stream headers -/

/-- The buffer the reset-stream encoders write into has 9 bytes. -/
theorem fitHeader_length (dst : Bytes) : (fitHeader dst).length = 9 := by
  unfold fitHeader
  split
  · simp
  · split
    · rw [List.length_take]
      omega
    · omega

/-- A list of 9 bytes, spelled out. -/
theorem bytes_of_length_nine (l : Bytes) (h : l.length = 9) :
    ∃ x0 x1 x2 x3 x4 x5 x6 x7 x8, l = [x0, x1, x2, x3, x4, x5, x6, x7, x8] := by
  match l, h with
  | [x0, x1, x2, x3, x4, x5, x6, x7, x8], _ => exact ⟨x0, x1, x2, x3, x4, x5, x6, x7, x8, rfl⟩

/-- The nine bytes `EncodeFINRstStreamHeader` returns: byte 0 is whatever the
buffer held. -/
theorem EncodeFINRstStreamHeader_eq (dst : Bytes) (rnd : Nat) :
    EncodeFINRstStreamHeader dst rnd =
      (fitHeader dst).getD 0 0 :: 0 :: 4 :: 0x7 :: 0x0 :: PutUint32 (uint32 rnd) := by
  obtain ⟨x0, x1, x2, x3, x4, x5, x6, x7, x8, h⟩ :=
    bytes_of_length_nine (fitHeader dst) (fitHeader_length dst)
  unfold EncodeFINRstStreamHeader
  rw [h]
  simp [copy, PutUint32, PutUint16, uint16]

/-- The nine bytes `EncodeACKRstStreamHeader` returns: byte 0 is whatever the
buffer held. -/
theorem EncodeACKRstStreamHeader_eq (dst : Bytes) (rnd : Nat) :
    EncodeACKRstStreamHeader dst rnd =
      (fitHeader dst).getD 0 0 :: 0 :: 4 :: 0x7 :: 0x1 :: PutUint32 (uint32 rnd) := by
  obtain ⟨x0, x1, x2, x3, x4, x5, x6, x7, x8, h⟩ :=
    bytes_of_length_nine (fitHeader dst) (fitHeader_length dst)
  unfold EncodeACKRstStreamHeader
  rw [h]
  simp [copy, PutUint32, PutUint16, uint16]

/-- C11, at the failing input: a 9-byte buffer whose first byte is 1 (such as
the data-frame header of a 65536-byte payload) keeps that byte; the length
field of the header both encoders return is 0x010004 = 65540, not 4. -/
theorem RstStreamHeader_length_field_keeps_first_byte (rnd : Nat) :
    NewHTTP2DataFrameHeader 65536 7 = [1, 0, 0, 0, 0, 0, 0, 0, 7] ∧
    (EncodeACKRstStreamHeader [1, 0, 0, 0, 0, 0, 0, 0, 7] rnd).take 3 = [1, 0, 4] ∧
    (EncodeFINRstStreamHeader [1, 0, 0, 0, 0, 0, 0, 0, 7] rnd).take 3 = [1, 0, 4] ∧
    payloadLength 1 0 4 = 65540 := by
  rw [EncodeACKRstStreamHeader_eq, EncodeFINRstStreamHeader_eq]
  exact ⟨by decide, rfl, rfl, by decide⟩

/-- The length field of both reset-stream headers is 4 when the buffer is
fresh (shorter than 9 bytes) or its first byte is zero. -/
theorem RstStreamHeader_length_field (dst : Bytes) (rnd : Nat)
    (h : dst.length < 9 ∨ dst.head? = some 0) :
    (EncodeACKRstStreamHeader dst rnd).take 3 = [0, 0, 4] ∧
    (EncodeFINRstStreamHeader dst rnd).take 3 = [0, 0, 4] := by
  have h0 : (fitHeader dst).getD 0 0 = 0 := by
    unfold fitHeader
    rcases h with h | h
    · rw [if_pos h]
      rfl
    · cases dst with
      | nil => simp
      | cons b r =>
        simp only [List.head?_cons, Option.some.injEq] at h
        subst h
        split
        · rfl
        · split <;> rfl
  rw [EncodeACKRstStreamHeader_eq, EncodeFINRstStreamHeader_eq, h0]
  exact ⟨rfl, rfl⟩

/-- C12: for every input slice and every value `rand.Int31` can return
(below 2^31), both reset-stream encoders return exactly 9 bytes with type byte
0x07; the flags byte is 0x01 for the ACK (ping) header and 0x00 for the FIN
header; the (type, flags) pairs of a data header, a FIN header and a ping
header are pairwise distinct; and the stream-id field (bytes 5..8) is the
big-endian value drawn, its first byte below 0x80 (top bit clear). -/
theorem RstStreamHeader_shape (dst : Bytes) (rnd : Nat) (datalen : Int) (hrnd : rnd < 2 ^ 31) :
    (EncodeACKRstStreamHeader dst rnd).length = 9 ∧
    (EncodeACKRstStreamHeader dst rnd).get? 3 = some 0x07 ∧
    (EncodeACKRstStreamHeader dst rnd).get? 4 = some 0x01 ∧
    (EncodeFINRstStreamHeader dst rnd).length = 9 ∧
    (EncodeFINRstStreamHeader dst rnd).get? 3 = some 0x07 ∧
    (EncodeFINRstStreamHeader dst rnd).get? 4 = some 0x00 ∧
    (((NewHTTP2DataFrameHeader datalen rnd).get? 3, (NewHTTP2DataFrameHeader datalen rnd).get? 4) ≠
      ((EncodeFINRstStreamHeader dst rnd).get? 3, (EncodeFINRstStreamHeader dst rnd).get? 4)) ∧
    (((NewHTTP2DataFrameHeader datalen rnd).get? 3, (NewHTTP2DataFrameHeader datalen rnd).get? 4) ≠
      ((EncodeACKRstStreamHeader dst rnd).get? 3, (EncodeACKRstStreamHeader dst rnd).get? 4)) ∧
    (((EncodeFINRstStreamHeader dst rnd).get? 3, (EncodeFINRstStreamHeader dst rnd).get? 4) ≠
      ((EncodeACKRstStreamHeader dst rnd).get? 3, (EncodeACKRstStreamHeader dst rnd).get? 4)) ∧
    (EncodeACKRstStreamHeader dst rnd).drop 5 =
      [rnd / 2 ^ 24 % 256, rnd / 2 ^ 16 % 256, rnd / 2 ^ 8 % 256, rnd % 256] ∧
    (EncodeFINRstStreamHeader dst rnd).drop 5 =
      [rnd / 2 ^ 24 % 256, rnd / 2 ^ 16 % 256, rnd / 2 ^ 8 % 256, rnd % 256] ∧
    rnd / 2 ^ 24 % 256 < 0x80 := by
  have hu : uint32 (rnd : Int) = rnd := by
    unfold uint32
    have : ((rnd : Int) % 2 ^ 32) = (rnd : Int) := Int.emod_eq_of_lt (by omega) (by omega)
    rw [this]
    exact Int.toNat_natCast rnd
  rw [EncodeACKRstStreamHeader_eq, EncodeFINRstStreamHeader_eq, NewHTTP2DataFrameHeader_eq, hu]
  refine ⟨rfl, rfl, rfl, rfl, rfl, rfl, by simp, by simp, by simp, rfl, rfl, by omega⟩

/-- Witness of C12: a reused 11-byte buffer and the largest stream
identifier. -/
theorem RstStreamHeader_shape_witness :
    EncodeACKRstStreamHeader [9, 9, 9, 9, 9, 9, 9, 9, 9, 9, 9] 0x7fffffff =
      [9, 0, 4, 0x07, 0x01, 0x7f, 0xff, 0xff, 0xff] ∧
    (EncodeACKRstStreamHeader [9, 9, 9, 9, 9, 9, 9, 9, 9, 9, 9] 0x7fffffff).length = 9 :=
  ⟨by decide, (RstStreamHeader_shape [9, 9, 9, 9, 9, 9, 9, 9, 9, 9, 9] 0x7fffffff 16
    (by decide)).1⟩

/-! ## Reading a SOCKS address -/

set_option maxRecDepth 4000 in
/-- C13, at the failing input: `MaxAddrLen` is 257, and a domain-name address
whose length byte is 254 makes `readAddr` slice `buf[2:258]` of the 257-byte
buffer, which panics (length byte 253 is the last that fits, giving an address
of 257 bytes); the SOCKS `handShake`, which allocates the buffer with
`make([]byte, MaxAddrLen)`, panics on a CONNECT request with length byte
255. -/
theorem readAddr_slices_past_MaxAddrLen :
    MaxAddrLen = 257 ∧
    readAddr ([0x03, 254] ++ List.replicate 256 97) (List.replicate MaxAddrLen 0) = .panic ∧
    readAddr ([0x03, 253] ++ List.replicate 255 97) (List.replicate MaxAddrLen 0) =
      .ok (some ([0x03, 253] ++ List.replicate 255 97), none, []) ∧
    socksHandShake (fun _ => none) ([5, 1, 0, 5, 1, 0, 0x03, 255] ++ List.replicate 257 97) =
      .panic := by
  decide

/-- `io.ReadFull` into a slice of the buffer keeps the buffer's length. -/
theorem readFullInto_length (stream buf : Bytes) (lo hi : Nat) (b s : Bytes) (e : Option Error)
    (h : readFullInto stream buf lo hi = .ok (b, s, e)) : b.length = buf.length := by
  unfold readFullInto at h
  split at h
  · rename_i hb
    have hl : (buf.take lo ++ stream.take (hi - lo) ++
        buf.drop (lo + (stream.take (hi - lo)).length)).length = buf.length := by
      simp only [List.length_append, List.length_take, List.length_drop]
      omega
    split at h
    · cases h; exact hl
    · split at h
      · cases h; exact hl
      · cases h; exact hl
  · exact Outcome.noConfusion h

/-- With a buffer of `MaxAddrLen` bytes, whatever it holds, `readAddr` panics
on every domain-name address whose length byte is 254 or more. -/
theorem readAddr_domain_panics (stream buf : Bytes) (n : Nat) (hbuf : buf.length = MaxAddrLen)
    (hn : 254 ≤ n) : readAddr (0x03 :: n :: stream) buf = .panic := by
  have hb : ¬ buf.length < MaxAddrLen := by omega
  have h257 : buf.length = 257 := hbuf
  unfold readAddr
  rw [if_neg hb]
  have hlarge : ¬ 2 + n ≤ 255 := by omega
  simp [readFullInto, h257, index, AtypDomainName, Outcome.ok_bind, bind, Outcome.bind, hlarge]

/-- A slice is no longer than the buffer it is taken from. -/
theorem slice_length_le (a r : Bytes) (lo hi : Nat) (h : slice a lo hi = .ok r) :
    r.length ≤ a.length := by
  unfold slice at h
  split at h
  · cases h
    simp only [List.length_drop, List.length_take]
    omega
  · exact Outcome.noConfusion h

/-- An address `readAddr` returns is no longer than the buffer. -/
theorem readAddr_length_le (stream buf addr rest : Bytes) (err : Option Error)
    (h : readAddr stream buf = .ok (some addr, err, rest)) : addr.length ≤ buf.length := by
  unfold readAddr at h
  split at h
  · cases h
  · obtain ⟨⟨b1, s1, e1⟩, h1, h⟩ := Outcome.bind_eq_ok _ _ _ h
    have l1 := readFullInto_length _ _ _ _ _ _ _ h1
    simp only [] at h
    split at h
    · cases h
    · obtain ⟨atyp, _, h⟩ := Outcome.bind_eq_ok _ _ _ h
      split at h
      · obtain ⟨⟨b2, s2, e2⟩, h2, h⟩ := Outcome.bind_eq_ok _ _ _ h
        have l2 := readFullInto_length _ _ _ _ _ _ _ h2
        simp only [] at h
        split at h
        · cases h
        · obtain ⟨n, _, h⟩ := Outcome.bind_eq_ok _ _ _ h
          obtain ⟨⟨b3, s3, e3⟩, h3, h⟩ := Outcome.bind_eq_ok _ _ _ h
          have l3 := readFullInto_length _ _ _ _ _ _ _ h3
          obtain ⟨a, ha, h⟩ := Outcome.bind_eq_ok _ _ _ h
          have la := slice_length_le _ _ _ _ ha
          dsimp only at la l1 l2 l3
          cases h
          omega
      · split at h
        · obtain ⟨⟨b2, s2, e2⟩, h2, h⟩ := Outcome.bind_eq_ok _ _ _ h
          have l2 := readFullInto_length _ _ _ _ _ _ _ h2
          obtain ⟨a, ha, h⟩ := Outcome.bind_eq_ok _ _ _ h
          have la := slice_length_le _ _ _ _ ha
          dsimp only at la l1 l2
          cases h
          omega
        · split at h
          · obtain ⟨⟨b2, s2, e2⟩, h2, h⟩ := Outcome.bind_eq_ok _ _ _ h
            have l2 := readFullInto_length _ _ _ _ _ _ _ h2
            obtain ⟨a, ha, h⟩ := Outcome.bind_eq_ok _ _ _ h
            have la := slice_length_le _ _ _ _ ha
            dsimp only at la l1 l2
            cases h
            omega
          · cases h

/-! ## Decoding a SOCKS address -/

/-- Every character `Nat.toDigitsCore` adds in base 10 is a decimal digit. -/
theorem toDigitsCore_digits (fuel n : Nat) (ds : List Char)
    (hds : ∀ c ∈ ds, '0'.toNat ≤ c.toNat ∧ c.toNat ≤ '9'.toNat) :
    ∀ c ∈ Nat.toDigitsCore 10 fuel n ds, '0'.toNat ≤ c.toNat ∧ c.toNat ≤ '9'.toNat := by
  induction fuel generalizing n ds with
  | zero => exact hds
  | succ k ih =>
    have hd : ∀ m, m < 10 → '0'.toNat ≤ (Nat.digitChar m).toNat ∧
        (Nat.digitChar m).toNat ≤ '9'.toNat := by decide
    have hcons : ∀ c ∈ Nat.digitChar (n % 10) :: ds,
        '0'.toNat ≤ c.toNat ∧ c.toNat ≤ '9'.toNat := by
      intro c hc
      rcases List.mem_cons.mp hc with h | h
      · rw [h]
        exact hd _ (Nat.mod_lt _ (by decide))
      · exact hds c h
    unfold Nat.toDigitsCore
    simp only []
    split
    · exact hcons
    · exact ih _ _ hcons

/-- The bytes of `decimal n` are ASCII digits. -/
theorem decimal_digits (n b : Nat) (h : b ∈ Go.decimal n) : '0'.toNat ≤ b ∧ b ≤ '9'.toNat := by
  unfold Go.decimal at h
  obtain ⟨c, hc, rfl⟩ := List.mem_map.mp h
  exact toDigitsCore_digits _ _ [] (by simp) c hc

/-- A big-endian pair of bytes, as `hi<<8 | lo` computes it. -/
theorem port_value (hi lo : Nat) (h : lo < 256) : hi <<< 8 ||| lo = 256 * hi + lo := by
  rw [Nat.shiftLeft_eq, Nat.mul_comm, ← Nat.mul_add_lt_is_or (by omega : lo < 2 ^ 8)]

/-- `strconv.Itoa` of a non-negative value is its decimal digits. -/
theorem FormatInt_natCast (n : Nat) : Go.FormatInt (n : Int) = Go.decimal n := by
  unfold Go.FormatInt
  rw [if_neg (by omega)]
  simp

/-- `net.JoinHostPort` does not bracket a host without colon and percent. -/
theorem JoinHostPort_plain (host port : Bytes) (h1 : ':'.toNat ∉ host) (h2 : '%'.toNat ∉ host) :
    Go.JoinHostPort host port = host ++ lit ":" ++ port := by
  unfold Go.JoinHostPort
  rw [indexByte_of_not_mem host _ h1, indexByte_of_not_mem host _ h2]
  simp

/-- The element that follows a prefix is found at the prefix's length. -/
theorem index_append (pre post : Bytes) (x i : Nat) (hi : i = pre.length) :
    index (pre ++ x :: post) i = .ok x := by
  subst hi
  have h : (pre ++ x :: post).get? pre.length = some x := by
    rw [List.get?_eq_getElem?, List.getElem?_append_right (Nat.le_refl _)]
    simp
  unfold index
  rw [h]

/-- `Addr.String` on a domain-name address whose host needs no brackets. -/
theorem Addr_String_domain (host : Bytes) (ph pl : Nat)
    (h1 : ':'.toNat ∉ host) (h2 : '%'.toNat ∉ host) (hpl : pl < 256) :
    Addr.String ([0x03, host.length] ++ host ++ [ph, pl]) =
      .ok (host ++ lit ":" ++ Go.decimal (256 * ph + pl)) := by
  have i0 : index ([0x03, host.length] ++ host ++ [ph, pl]) 0 = .ok 3 := rfl
  have i1 : index ([0x03, host.length] ++ host ++ [ph, pl]) 1 = .ok host.length := rfl
  have sl : slice ([0x03, host.length] ++ host ++ [ph, pl]) 2 (2 + host.length) = .ok host := by
    unfold slice
    rw [if_pos ⟨by omega, by simp only [List.length_append, List.length_cons, List.length_nil]; omega⟩]
    simp [Nat.add_comm 2 host.length]
  have i2 : index ([0x03, host.length] ++ host ++ [ph, pl]) (2 + host.length) = .ok ph :=
    index_append ([0x03, host.length] ++ host) [pl] ph _
      (by simp only [List.length_append, List.length_cons, List.length_nil])
  have i3 : index ([0x03, host.length] ++ host ++ [ph, pl]) (2 + host.length + 1) = .ok pl := by
    have e : [0x03, host.length] ++ host ++ [ph, pl] =
        ([0x03, host.length] ++ host ++ [ph]) ++ pl :: [] := by simp
    rw [e]
    exact index_append _ [] pl _
      (by simp only [List.length_append, List.length_cons, List.length_nil])
  unfold Addr.String Addr.hostPort
  rw [i0]
  simp only [Outcome.ok_bind, AtypDomainName, if_true]
  rw [i1]
  simp only [Outcome.ok_bind]
  rw [sl]
  simp only [Outcome.ok_bind]
  rw [i2]
  simp only [Outcome.ok_bind]
  rw [i3]
  simp only [Outcome.ok_bind, Outcome.pure_eq]
  rw [port_value ph pl hpl, FormatInt_natCast, JoinHostPort_plain host _ h1 h2]

/-- The dotted-decimal text of four bytes holds neither colon nor percent. -/
theorem dotted_plain (a b c d x : Nat) (hx : x = ':'.toNat ∨ x = '%'.toNat) :
    x ∉ Go.decimal a ++ lit "." ++ Go.decimal b ++ lit "." ++ Go.decimal c ++ lit "." ++
      Go.decimal d := by
  have hdig : ∀ n, x ∉ Go.decimal n := by
    intro n hmem
    have := decimal_digits n x hmem
    rcases hx with h | h <;> subst h <;> revert this <;> decide
  have hdot : x ∉ lit "." := by
    rcases hx with h | h <;> subst h <;> decide
  simp only [List.mem_append, not_or]
  exact ⟨⟨⟨⟨⟨⟨hdig a, hdot⟩, hdig b⟩, hdot⟩, hdig c⟩, hdot⟩, hdig d⟩

/-- `net.IP.String` on four bytes is their dotted-decimal text. -/
theorem IPString_v4 (a b c d : Nat) :
    Go.IPString [a, b, c, d] =
      Go.decimal a ++ lit "." ++ Go.decimal b ++ lit "." ++ Go.decimal c ++ lit "." ++
        Go.decimal d := by
  simp [Go.IPString, Go.To4, Go.join]

/-- `Addr.String` on an IPv4 address. -/
theorem Addr_String_ipv4 (a b c d ph pl : Nat) (hpl : pl < 256) :
    Addr.String [0x01, a, b, c, d, ph, pl] =
      .ok (Go.decimal a ++ lit "." ++ Go.decimal b ++ lit "." ++ Go.decimal c ++ lit "." ++
        Go.decimal d ++ lit ":" ++ Go.decimal (256 * ph + pl)) := by
  have hp : Addr.hostPort [0x01, a, b, c, d, ph, pl] =
      .ok (Go.IPString [a, b, c, d], Go.FormatInt ((ph <<< 8 ||| pl : Nat) : Int)) := rfl
  unfold Addr.String
  rw [hp]
  simp only [Outcome.ok_bind, Outcome.pure_eq]
  rw [port_value ph pl hpl, FormatInt_natCast, IPString_v4,
    JoinHostPort_plain _ _ (dotted_plain a b c d _ (Or.inl rfl))
      (dotted_plain a b c d _ (Or.inr rfl))]

/-- `Addr.String` on an address of a type other than 1, 3 and 4. -/
theorem Addr_String_other (t : Nat) (rest : Bytes) (h1 : t ≠ 1) (h3 : t ≠ 3) (h4 : t ≠ 4) :
    Addr.String (t :: rest) = .ok (lit ":") := by
  have i0 : index (t :: rest) 0 = .ok t := rfl
  unfold Addr.String Addr.hostPort
  rw [i0]
  simp only [Outcome.ok_bind, AtypDomainName, AtypIPv4, AtypIPv6, if_neg h1, if_neg h3, if_neg h4]
  rfl

/-- C14: `Addr.String` decodes the SOCKS5 address encoding.  For a domain-name
address `[0x03, n] ++ host ++ [ph, pl]` with `n` the length of `host` and no
colon or percent sign in `host` it returns `host ++ ":" ++ decimal(256*ph+pl)`;
for an IPv4 address `[0x01, a, b, c, d, ph, pl]` it returns
`a.b.c.d:` followed by `decimal(256*ph+pl)`; for an address whose type byte
`t` is not 1, 3 or 4 it returns `:`; and no value it returns is the empty
string (`pl` being a byte). -/
theorem Addr_String_decodes (host rest : Bytes) (a b c d ph pl t : Nat)
    (hcolon : ':'.toNat ∉ host) (hpercent : '%'.toNat ∉ host) (hpl : pl < 256)
    (ht : t ≠ 1 ∧ t ≠ 3 ∧ t ≠ 4) :
    Addr.String ([0x03, host.length] ++ host ++ [ph, pl]) =
      .ok (host ++ lit ":" ++ Go.decimal (256 * ph + pl)) ∧
    Addr.String [0x01, a, b, c, d, ph, pl] =
      .ok (Go.decimal a ++ lit "." ++ Go.decimal b ++ lit "." ++ Go.decimal c ++ lit "." ++
        Go.decimal d ++ lit ":" ++ Go.decimal (256 * ph + pl)) ∧
    Addr.String (t :: rest) = .ok (lit ":") ∧
    (∀ (x : Addr) (s : Bytes), Addr.String x = .ok s → s ≠ []) := by
  refine ⟨Addr_String_domain host ph pl hcolon hpercent hpl, Addr_String_ipv4 a b c d ph pl hpl,
    Addr_String_other t rest ht.1 ht.2.1 ht.2.2, ?_⟩
  intro x s hs hnil
  obtain ⟨h, p, hj⟩ := Addr_String_is_join x s hs
  have hmem : ':'.toNat ∈ s := hj ▸ JoinHostPort_has_colon h p
  rw [hnil] at hmem
  exact List.not_mem_nil _ hmem

/-- Witness of C14: example.com:8080, 10.0.0.5:8080 (port bytes 0x1f, 0x90)
and an address of type 9. -/
theorem Addr_String_decodes_witness :
    Addr.String ([0x03, (lit "example.com").length] ++ lit "example.com" ++ [0x1f, 0x90]) =
      .ok (lit "example.com" ++ lit ":" ++ Go.decimal (256 * 0x1f + 0x90)) ∧
    Addr.String [0x01, 10, 0, 0, 5, 0x1f, 0x90] =
      .ok (Go.decimal 10 ++ lit "." ++ Go.decimal 0 ++ lit "." ++ Go.decimal 0 ++ lit "." ++
        Go.decimal 5 ++ lit ":" ++ Go.decimal (256 * 0x1f + 0x90)) ∧
    Addr.String (9 :: [1, 2]) = .ok (lit ":") ∧
    (∀ (x : Addr) (s : Bytes), Addr.String x = .ok s → s ≠ []) :=
  Addr_String_decodes (lit "example.com") [1, 2] 10 0 0 5 0x1f 0x90 9 (by decide) (by decide)
    (by decide) (by decide)

/-! ## Host names in address validation -/

/-- C15: for a target that splits into `host` and `port`, where `host` is not
an IP literal, `validateAddr` returns an error exactly when `host` equals the
configured `Server` and `port` the decimal `ServerPort`, and that error is the
loop error; the result does not depend on `util.IsPrivateIP`, `util.IsIPV6`,
`DisableIPV6` or the resolved `serverIP`. -/
theorem validateAddr_hostname (u : Util) (ss : Easyss) (addr host port : Bytes)
    (hsplit : Go.SplitHostPort addr = .ok (host, port))
    (hname : u.IsIP host = false) :
    (validateAddr u ss addr ≠ none ↔ (host = ss.Server ∧ port = Go.FormatInt ss.ServerPort)) ∧
    validateAddr u ss addr =
      (if host = ss.Server ∧ port = Go.FormatInt ss.ServerPort then some .loopServerHostPort
        else none) ∧
    (∀ (isPrivateIP isIPV6 : Bytes → Bool) (serverIP : Bytes) (disableIPV6 : Bool),
      validateAddr ⟨u.IsIP, isPrivateIP, isIPV6⟩
        ⟨{ ss.config with DisableIPV6 := disableIPV6 }, serverIP, ss.disableValidateAddr⟩ addr =
        validateAddr u ss addr) := by
  have heq : validateAddr u ss addr =
      (if host = ss.Server ∧ port = Go.FormatInt ss.ServerPort then some .loopServerHostPort
        else none) := by
    simp [validateAddr, hsplit, hname]
  refine ⟨?_, heq, ?_⟩
  · rw [heq]
    by_cases h : host = ss.Server ∧ port = Go.FormatInt ss.ServerPort
    · simp [h]
    · simp [h]
  · intro p v sip d
    rw [heq]
    simp [validateAddr, hsplit, hname, Easyss.Server, Easyss.ServerPort]

/-- Witness of C15: the host name `localhost` is accepted under the sample
configuration, with IPv6 disabled or not. -/
theorem validateAddr_hostname_witness :
    validateAddr specUtil (New specUtil (fun _ => []) sampleConfig) (lit "localhost:80") = none ∧
    (validateAddr specUtil (New specUtil (fun _ => []) sampleConfig) (lit "localhost:80") ≠ none ↔
      (lit "localhost" = (New specUtil (fun _ => []) sampleConfig).Server ∧
        lit "80" = Go.FormatInt (New specUtil (fun _ => []) sampleConfig).ServerPort)) :=
  ⟨by decide,
    (validateAddr_hostname specUtil (New specUtil (fun _ => []) sampleConfig) (lit "localhost:80")
      (lit "localhost") (lit "80") (by decide) (by decide)).1⟩

/-! ## Addresses the remote handshake lets through -/

/-- The remote `handShake` accepts every payload of two or more bytes in a
valid DATA frame: the last byte selects the cipher, the rest is the address. -/
theorem handShake_frame (NewAes256GCM : Bytes → Except Error AEAD) (gcm : AEAD)
    (password headerbuf payloadbuf rest hp A : Bytes) (b : Nat)
    (hgcm : NewAes256GCM password = .ok gcm)
    (hhlen : headerbuf.length = 9 + gcm.NonceSize + gcm.Overhead)
    (hhdec : gcm.Decrypt headerbuf = .ok hp)
    (hhp : 5 ≤ hp.length) (htype : hp.getD 3 0 = 0x0) (hflag : hp.getD 4 0 = 0x0)
    (hplen : payloadbuf.length =
      payloadLength (hp.getD 0 0) (hp.getD 1 0) (hp.getD 2 0) + gcm.NonceSize + gcm.Overhead)
    (hpdec : gcm.Decrypt payloadbuf = .ok (A ++ [b]))
    (hA : A ≠ []) :
    handShake NewAes256GCM (headerbuf ++ payloadbuf ++ rest) password =
      .ok (A, DecodeCipherMethod b, rest) := by
  have htake : (headerbuf ++ payloadbuf ++ rest).take (9 + gcm.NonceSize + gcm.Overhead) =
      headerbuf := by
    rw [← hhlen, List.append_assoc, List.take_left']
    rfl
  have hdrop : (headerbuf ++ payloadbuf ++ rest).drop (9 + gcm.NonceSize + gcm.Overhead) =
      payloadbuf ++ rest := by
    rw [← hhlen, List.append_assoc, List.drop_left']
    rfl
  have hlen : 9 + gcm.NonceSize + gcm.Overhead ≤ (headerbuf ++ payloadbuf ++ rest).length := by
    simp only [List.length_append]
    omega
  have hnot : ¬ (hp.getD 3 0 ≠ 0 ∨ hp.getD 4 0 ≠ 0) := by
    rw [htype, hflag]
    simp
  have hptake : (payloadbuf ++ rest).take payloadbuf.length = payloadbuf := List.take_left' rfl
  have hpdrop : (payloadbuf ++ rest).drop payloadbuf.length = rest := List.drop_left' rfl
  have hApos : 0 < A.length := List.length_pos.mpr hA
  have hl : ¬ (A ++ [b]).length ≤ 1 := by
    simp only [List.length_append, List.length_singleton]
    omega
  have e1 : (A ++ [b]).length - 1 = A.length := by simp
  have e2 : (A ++ [b]).getD A.length 0 = b := by simp [List.getD]
  have e3 : (A ++ [b]).take A.length = A := List.take_left' rfl
  rw [handShake_header_ok NewAes256GCM gcm _ password hp hgcm hlen (by rw [htake]; exact hhdec)
    hhp, hdrop, if_neg hnot, ReadFull_of_le _ _ (by simp only [List.length_append]; omega),
    ← hplen, hptake, hpdrop]
  simp only [hpdec]
  rw [if_neg hl, e1, e2, e3]

/-- C16: the remote `handShake` checks only the length of the payload.  When a
valid DATA frame carries the two-byte payload 0x03, 0x01, `handShake` returns
the one-byte address `[0x03]` with method aes-256-gcm and no error; the
`addr.String()` call the accept loop makes next reads the length byte past the
end of the address and panics. -/
theorem handShake_accepts_truncated_address (u : Util) (env : RemoteEnv) (config : Config)
    (gcm : AEAD) (headerbuf payloadbuf rest hp : Bytes)
    (hgcm : env.NewAes256GCM config.Password = .ok gcm)
    (hhlen : headerbuf.length = 9 + gcm.NonceSize + gcm.Overhead)
    (hhdec : gcm.Decrypt headerbuf = .ok hp)
    (hhp : hp.length = 9) (htype : hp.getD 3 0 = 0x0) (hflag : hp.getD 4 0 = 0x0)
    (hplen : payloadbuf.length =
      payloadLength (hp.getD 0 0) (hp.getD 1 0) (hp.getD 2 0) + gcm.NonceSize + gcm.Overhead)
    (hpdec : gcm.Decrypt payloadbuf = .ok [0x03, 0x01]) :
    handShake env.NewAes256GCM (headerbuf ++ payloadbuf ++ rest) config.Password =
      .ok ([0x03], lit "aes-256-gcm", rest) ∧
    Addr.String [0x03] = .panic ∧
    tcpServerPass u env config (headerbuf ++ payloadbuf ++ rest) = .panic := by
  have hs : handShake env.NewAes256GCM (headerbuf ++ payloadbuf ++ rest) config.Password =
      .ok ([0x03], lit "aes-256-gcm", rest) :=
    handShake_frame env.NewAes256GCM gcm config.Password headerbuf payloadbuf rest hp [0x03] 0x01
      hgcm hhlen hhdec (by omega) htype hflag hplen hpdec (by simp)
  refine ⟨hs, rfl, ?_⟩
  unfold tcpServerPass
  rw [hs]
  rfl

/-- Witness of C16: the payload 0x03, 0x01 sealed under `sampleAEAD`. -/
theorem handShake_accepts_truncated_address_witness :
    handShake sampleRemoteEnv.NewAes256GCM
      (sampleSeal (NewHTTP2DataFrameHeader 2 5) ++ sampleSeal [0x03, 0x01] ++ [])
      sampleConfig.Password = .ok ([0x03], lit "aes-256-gcm", []) ∧
    Addr.String [0x03] = .panic ∧
    tcpServerPass specUtil sampleRemoteEnv sampleConfig
      (sampleSeal (NewHTTP2DataFrameHeader 2 5) ++ sampleSeal [0x03, 0x01] ++ []) = .panic :=
  handShake_accepts_truncated_address specUtil sampleRemoteEnv sampleConfig sampleAEAD
    (sampleSeal (NewHTTP2DataFrameHeader 2 5)) (sampleSeal [0x03, 0x01]) []
    (NewHTTP2DataFrameHeader 2 5) rfl (by decide) (by decide) (by decide) (by decide)
    (by decide) (by decide) (by decide)

end EasyssProxy
